import Mathlib

/-!
Verification development for the byte-draw canvas editor core.

The element data model, the reducer (`canvasReducer`), the provider-level
operations (`mutateElements`, `copy`, `paste`, `groupElements`,
`ungroupElements`), the geometry kernel (`getRotatedCorners`,
`getBoundingBox`) and the snap engine (`calculateSnap`) are embedded
shallowly from the TypeScript sources:

  - src/src/main.tsx                      (state, reducer, provider operations)
  - src/src/components/canvas/snapUtils.ts (snap engine)
  - src/unnamed/part_002                  (geometry kernel with rotated corners)

Conventions of the embedding:
  - JS numbers are modelled as exact rationals (ℚ).  The trigonometric
    functions used by point rotation are passed in as an explicit function
    `trig : ℚ → ℚ × ℚ` returning (cos, sin) of an angle in degrees, so that
    all definitions stay computable; theorems that need concrete angles take
    the exact mathematical values of cos/sin as hypotheses.
  - `crypto.randomUUID` (fresh id generation) is modelled by a counter
    `nextId` threaded through the provider state; an id is fresh when every
    id currently in use is below the counter.
  - `deepCopy` (structuredClone) is the identity on immutable Lean values;
    the aliasing-freedom it provides in JS is automatic here.
-/

set_option linter.unusedVariables false

namespace ByteDraw

/-- Shape variant of a shape element (`rectangle | circle | triangle`). -/
inductive ShapeVariant : Type where
  | rectangle
  | circle
  | triangle
  deriving DecidableEq, Repr

mutual
/-- A canvas element (tagged union `shape | text | image | group`), from
src/src/main.tsx and the canvas types.  Common fields: id, name, x, y,
width, height, rotation (degrees), opacity; the payload carries the
variant-specific fields. -/
inductive CanvasElement : Type where
  | mk (id : Nat) (name : String) (x y width height rotation opacity : ℚ)
      (payload : ElemPayload)

/-- Variant-specific fields of a canvas element.  A group owns the list of
its children; child coordinates are relative to the group's own x,y. -/
inductive ElemPayload : Type where
  | shape (variant : ShapeVariant) (fill stroke : String) (strokeWidth cornerRadius : ℚ)
  | text (content : String) (fontSize : ℚ) (color : String)
  | image (src : String) (borderRadius : ℚ)
  | group (children : List CanvasElement)
end

def CanvasElement.id : CanvasElement → Nat
  | .mk i _ _ _ _ _ _ _ _ => i

def CanvasElement.name : CanvasElement → String
  | .mk _ n _ _ _ _ _ _ _ => n

def CanvasElement.x : CanvasElement → ℚ
  | .mk _ _ x _ _ _ _ _ _ => x

def CanvasElement.y : CanvasElement → ℚ
  | .mk _ _ _ y _ _ _ _ _ => y

def CanvasElement.width : CanvasElement → ℚ
  | .mk _ _ _ _ w _ _ _ _ => w

def CanvasElement.height : CanvasElement → ℚ
  | .mk _ _ _ _ _ h _ _ _ => h

def CanvasElement.rotation : CanvasElement → ℚ
  | .mk _ _ _ _ _ _ r _ _ => r

def CanvasElement.opacity : CanvasElement → ℚ
  | .mk _ _ _ _ _ _ _ o _ => o

def CanvasElement.payload : CanvasElement → ElemPayload
  | .mk _ _ _ _ _ _ _ _ p => p

/-- Whether the element is a group (JS: `el.type === 'group'`). -/
def CanvasElement.isGroup : CanvasElement → Bool
  | .mk _ _ _ _ _ _ _ _ (.group _) => true
  | _ => false

/-- Move an element by (dx, dy): the JS spread `{...el, x: el.x+dx, y: el.y+dy}`. -/
def CanvasElement.translate : CanvasElement → ℚ → ℚ → CanvasElement
  | .mk i n x y w h r o p, dx, dy => .mk i n (x + dx) (y + dy) w h r o p

/-- Replace the element's position: `{...el, x := nx, y := ny}`. -/
def CanvasElement.withPos : CanvasElement → ℚ → ℚ → CanvasElement
  | .mk i n _ _ w h r o p, nx, ny => .mk i n nx ny w h r o p

/-- Replace the element's id: `{...el, id := i}`. -/
def CanvasElement.withId : CanvasElement → Nat → CanvasElement
  | .mk _ n x y w h r o p, i => .mk i n x y w h r o p

/-- Replace the element's name: `{...el, name := s}`. -/
def CanvasElement.withName : CanvasElement → String → CanvasElement
  | .mk i _ x y w h r o p, s => .mk i s x y w h r o p

/-- The geometry observables of an element: absolute x, y, width, height,
rotation.  Used to state properties where ids are allowed to differ. -/
def geomOf (el : CanvasElement) : ℚ × ℚ × ℚ × ℚ × ℚ :=
  (el.x, el.y, el.width, el.height, el.rotation)

/-- The artboard record from src/src/main.tsx. -/
structure Artboard : Type where
  x : ℚ
  y : ℚ
  width : ℚ
  height : ℚ
  backgroundColor : String
  opacity : ℚ
  visible : Bool
  deriving DecidableEq, Repr

/-- Interaction mode (`select | pan`). -/
inductive InteractionMode : Type where
  | select
  | pan
  deriving DecidableEq, Repr

/-- A point used for the pan offset. -/
structure Pan : Type where
  x : ℚ
  y : ℚ
  deriving DecidableEq, Repr

/-- The root canvas state (`CanvasState` in src/src/main.tsx). -/
@[ext]
structure CanvasState : Type where
  elements : List CanvasElement
  selectedIds : List Nat
  zoom : ℚ
  pan : Pan
  interactionMode : InteractionMode
  history : List (List CanvasElement)
  redoStack : List (List CanvasElement)
  artboard : Option Artboard
  editingTextId : Option Nat

/-- `deepCopy` from src/src/main.tsx (structuredClone / JSON round-trip):
on immutable Lean values this is the identity; it is kept as a named
definition so the reducer reads like the source. -/
def deepCopy {α : Type} (v : α) : α := v

/-- JS `Array.from(new Set(l))`: deduplicate keeping the first occurrence,
preserving order (used by additive selection). -/
def jsSetDedup (l : List Nat) : List Nat :=
  l.foldl (fun acc x => if acc.contains x then acc else acc ++ [x]) []

/-- The reducer's action type from src/src/main.tsx (the artboard-patch
actions UPDATE_ARTBOARD / UPDATE_ARTBOARD_COLOR touch only the artboard
field and are not needed by any verified operation; they are omitted). -/
inductive Action : Type where
  | setElements (updater : List CanvasElement → List CanvasElement)
      (recordHistory : Bool) (historySnapshot : Option (List CanvasElement))
  | setSelection (payload : List Nat) (additive : Bool)
  | clearSelection
  | setZoom (payload : ℚ)
  | setPan (payload : Pan)
  | panBy (payload : Pan)
  | setMode (payload : InteractionMode)
  | undo
  | redo
  | setArtboard (payload : Option Artboard)
  | startEditingText (payload : Nat)
  | stopEditingText

/-- `canvasReducer` from src/src/main.tsx lines 209-325. -/
def canvasReducer (state : CanvasState) (action : Action) : CanvasState :=
  match action with
  | .setElements updater recordHistory historySnapshot =>
    let workingCopy := deepCopy state.elements
    let updated := updater workingCopy
    let shouldRecord := recordHistory
    { state with
      elements := updated
      history := if shouldRecord then
          state.history ++ [historySnapshot.getD (deepCopy state.elements)]
        else state.history
      redoStack := if shouldRecord then [] else state.redoStack }
  | .setSelection payload additive =>
    { state with
      selectedIds := if additive then jsSetDedup (state.selectedIds ++ payload) else payload }
  | .clearSelection => { state with selectedIds := [] }
  | .setZoom z => { state with zoom := z }
  | .setPan p => { state with pan := p }
  | .panBy p => { state with pan := ⟨state.pan.x + p.x, state.pan.y + p.y⟩ }
  | .setMode m => { state with interactionMode := m }
  | .undo =>
    match state.history.getLast? with
    | none => state
    | some previous =>
      { state with
        elements := previous
        history := state.history.dropLast
        redoStack := deepCopy state.elements :: state.redoStack
        selectedIds := [] }
  | .redo =>
    match state.redoStack with
    | [] => state
    | next :: rest =>
      { state with
        elements := next
        history := state.history ++ [deepCopy state.elements]
        redoStack := rest
        selectedIds := [] }
  | .setArtboard a => { state with artboard := a }
  | .startEditingText i => { state with editingTextId := some i }
  | .stopEditingText => { state with editingTextId := none }

/-- Options of `mutateElements` (`{recordHistory?, historySnapshot?}`). -/
structure MutateOptions : Type where
  recordHistory : Option Bool
  historySnapshot : Option (List CanvasElement)

/-- `mutateElements` from src/src/main.tsx lines 447-461: dispatches
SET_ELEMENTS with `recordHistory` defaulting to true. -/
def mutateElements (updater : List CanvasElement → List CanvasElement)
    (options : Option MutateOptions) (s : CanvasState) : CanvasState :=
  canvasReducer s (Action.setElements updater
    ((options.bind MutateOptions.recordHistory).getD true)
    (options.bind MutateOptions.historySnapshot))

/-- The provider-level mutable context of `CanvasProvider`: the canvas
state, the internal clipboard (`clipboardRef`), the consecutive-paste
counter (`pasteCountRef`, initialised to 1), and the id supply modelling
`crypto.randomUUID`. -/
@[ext]
structure ProviderState : Type where
  canvas : CanvasState
  clipboard : List CanvasElement
  pasteCount : Nat
  nextId : Nat

/-- `undo` from src/src/main.tsx: dispatches UNDO. -/
def undo (ps : ProviderState) : ProviderState :=
  { ps with canvas := canvasReducer ps.canvas .undo }

/-- `redo` from src/src/main.tsx: dispatches REDO. -/
def redo (ps : ProviderState) : ProviderState :=
  { ps with canvas := canvasReducer ps.canvas .redo }

/-- `copy` from src/src/main.tsx lines 490-500: deep-copies the selected
elements into the clipboard and resets the paste counter to 1; does
nothing when the selection matches no element. -/
def copy (ps : ProviderState) : ProviderState :=
  let selectedElements := ps.canvas.elements.filter
    (fun el => ps.canvas.selectedIds.contains el.id)
  if 0 < selectedElements.length then
    { ps with clipboard := deepCopy selectedElements, pasteCount := 1 }
  else ps

/-- The per-item loop body of `paste`: clones every clipboard item with a
fresh id, the name suffixed by " 副本", and both coordinates offset, in
clipboard order.  Returns (new elements, new ids, next free id). -/
def pasteClones : List CanvasElement → ℚ → Nat →
    List CanvasElement × List Nat × Nat
  | [], _, n => ([], [], n)
  | item :: rest, offset, n =>
    let newElement := ((deepCopy item).translate offset offset).withId n
      |>.withName (item.name ++ " 副本")
    let t := pasteClones rest offset (n + 1)
    (newElement :: t.1, n :: t.2.1, t.2.2)

/-- `paste` from src/src/main.tsx lines 515-545: no-op on an empty
clipboard; otherwise appends clones offset by `20 * pasteCount` on both
axes, selects the new ids and increments the paste counter. -/
def paste (ps : ProviderState) : ProviderState :=
  if ps.clipboard.isEmpty then ps else
  let offset : ℚ := 20 * ps.pasteCount
  let t := pasteClones ps.clipboard offset ps.nextId
  let c1 := mutateElements (fun prev => prev ++ t.1) none ps.canvas
  let c2 := canvasReducer c1 (.setSelection t.2.1 false)
  { ps with canvas := c2, pasteCount := ps.pasteCount + 1, nextId := t.2.2 }

/-- `groupElements` from src/src/main.tsx lines 859-915.  No-op when at
most one id is selected.  Otherwise computes the unrotated bounding box of
the selected elements, wraps deep copies of them (repositioned relative to
the box) into a new group appended at the end, and selects the group.
The source initialises the box fold with ±Infinity; over ℚ the fold is
started from the first selected element instead, which yields the same
min/max for the non-empty list.  The degenerate case where the selected
ids match no element (the source would build a box of infinities, which ℚ
cannot represent) is left as the identity. -/
def groupElements (ps : ProviderState) : ProviderState :=
  if ps.canvas.selectedIds.length ≤ 1 then ps else
  let selectedElements := ps.canvas.elements.filter
    (fun el => ps.canvas.selectedIds.contains el.id)
  match selectedElements with
  | [] => ps
  | first :: _ =>
    let minX := selectedElements.foldl (fun acc el => min acc el.x) first.x
    let minY := selectedElements.foldl (fun acc el => min acc el.y) first.y
    let maxX := selectedElements.foldl (fun acc el => max acc (el.x + el.width))
      (first.x + first.width)
    let maxY := selectedElements.foldl (fun acc el => max acc (el.y + el.height))
      (first.y + first.height)
    let groupId := ps.nextId
    let childElements := selectedElements.map
      (fun el => (deepCopy el).withPos (el.x - minX) (el.y - minY))
    let groupName := "组 " ++ toString
      ((ps.canvas.elements.filter (fun el => el.isGroup)).length + 1)
    let grp : CanvasElement := .mk groupId groupName minX minY
      (maxX - minX) (maxY - minY) 0 1 (.group childElements)
    let c1 := mutateElements
      (fun elements =>
        (elements.filter (fun el => !(ps.canvas.selectedIds.contains el.id))) ++ [grp])
      none ps.canvas
    let c2 := canvasReducer c1 (.setSelection [groupId] false)
    { ps with canvas := c2, nextId := ps.nextId + 1 }

/-- `processChildren` inside `ungroupElements` (src/src/main.tsx lines
946-974): walks the children depth-first, converting each position to the
accumulated absolute frame and assigning fresh ids.  A child that is
itself a group receives a fresh id (recorded in the id list) but is NOT
added to the output elements; instead its own children are processed
recursively with the accumulated offset — nested groups are dissolved.
Returns (flattened leaf elements, ids in traversal order, next free id). -/
def processChildren : List CanvasElement → ℚ → ℚ → Nat →
    List CanvasElement × List Nat × Nat
  | [], _, _, n => ([], [], n)
  | child :: rest, parentX, parentY, n =>
    let moved := (deepCopy child).translate parentX parentY
    match hp : moved.payload with
    | .group cs =>
      let inner := processChildren cs moved.x moved.y (n + 1)
      let tail := processChildren rest parentX parentY inner.2.2
      (inner.1 ++ tail.1, n :: (inner.2.1 ++ tail.2.1), tail.2.2)
    | _ =>
      let tail := processChildren rest parentX parentY (n + 1)
      (moved.withId n :: tail.1, n :: tail.2.1, tail.2.2)
termination_by children _ _ _ => sizeOf children
decreasing_by
  · cases child with
    | mk i nm x y w h r o p =>
      simp only [deepCopy, CanvasElement.translate, CanvasElement.payload] at hp
      subst hp
      simp
      omega
  · simp
  · simp

/-- `ungroupElements` from src/src/main.tsx lines 931-992.  No-op unless
exactly one id is selected and it denotes a group element.  Otherwise the
group is removed and replaced at the end of the order by the recursively
flattened children at absolute positions; the fresh ids (including ids
assigned to dissolved nested groups) become the selection. -/
def ungroupElements (ps : ProviderState) : ProviderState :=
  if ps.canvas.selectedIds.length ≠ 1 then ps else
  let selId := ps.canvas.selectedIds.headD 0
  match ps.canvas.elements.find? (fun el => el.id == selId && el.isGroup) with
  | none => ps
  | some grp =>
    match grp.payload with
    | .group rootChildren =>
      let t := processChildren rootChildren grp.x grp.y ps.nextId
      let c1 := mutateElements
        (fun elements => (elements.filter (fun el => el.id != grp.id)) ++ t.1)
        none ps.canvas
      let c2 := canvasReducer c1 (.setSelection t.2.1 false)
      { ps with canvas := c2, nextId := t.2.2 }
    | _ => ps

/-! ## Geometry kernel (src/unnamed/part_002) -/

/-- A 2D point. -/
structure Point : Type where
  x : ℚ
  y : ℚ
  deriving DecidableEq, Repr

/-- An axis-aligned bounding box. -/
structure BBox : Type where
  x : ℚ
  y : ℚ
  width : ℚ
  height : ℚ
  deriving DecidableEq, Repr

/-- `rotatePoint` from src/unnamed/part_002 lines 8-24, rotating (px, py)
about (cx, cy).  The source computes cos/sin of the angle in radians; here
the exact values (c, s) = (cos θ, sin θ) are passed in directly. -/
def rotatePoint (px py cx cy c s : ℚ) : Point :=
  let dx := px - cx
  let dy := py - cy
  ⟨cx + dx * c - dy * s, cy + dx * s + dy * c⟩

/-- `getRotatedCorners` from src/unnamed/part_002 lines 27-47: the four
corners of the element (top-left, top-right, bottom-right, bottom-left),
rotated about the element's center unless the rotation is 0.  `trig θ`
supplies (cos θ, sin θ) for the angle θ in degrees. -/
def getRotatedCorners (trig : ℚ → ℚ × ℚ) (element : CanvasElement) : List Point :=
  let cx := element.x + element.width / 2
  let cy := element.y + element.height / 2
  let corners : List Point :=
    [⟨element.x, element.y⟩,
     ⟨element.x + element.width, element.y⟩,
     ⟨element.x + element.width, element.y + element.height⟩,
     ⟨element.x, element.y + element.height⟩]
  if element.rotation = 0 then corners
  else
    let c := (trig element.rotation).1
    let s := (trig element.rotation).2
    corners.map (fun corner => rotatePoint corner.x corner.y cx cy c s)

/-- The min/max fold of `getBoundingBox` over a corner list.  The source
starts the fold at ±Infinity; over ℚ it is started from the first corner
(every element contributes exactly four corners, so the corner list of a
non-empty element list is non-empty), which yields the same min/max. -/
def bboxOfCorners : List Point → Option BBox
  | [] => none
  | c0 :: cs =>
    let minX := cs.foldl (fun acc c => min acc c.x) c0.x
    let minY := cs.foldl (fun acc c => min acc c.y) c0.y
    let maxX := cs.foldl (fun acc c => max acc c.x) c0.x
    let maxY := cs.foldl (fun acc c => max acc c.y) c0.y
    some ⟨minX, minY, maxX - minX, maxY - minY⟩

/-- `getBoundingBox` from src/unnamed/part_002 lines 49-75: null for an
empty set; otherwise min/max over the rotated corners of every element. -/
def getBoundingBox (trig : ℚ → ℚ × ℚ) (elements : List CanvasElement) : Option BBox :=
  match elements with
  | [] => none
  | _ => bboxOfCorners (elements.flatMap (getRotatedCorners trig))

/-! ## Snap engine (src/src/components/canvas/snapUtils.ts) -/

/-- Orientation of a snap line or guide line. -/
inductive LineKind : Type where
  | horizontal
  | vertical
  deriving DecidableEq, Repr

/-- A candidate alignment line of a static element (`SnapLine`).  The
source's `end` field is called `stop` here (`end` is reserved). -/
structure SnapLine : Type where
  type : LineKind
  value : ℚ
  start : ℚ
  stop : ℚ
  deriving DecidableEq, Repr

/-- A snap point of a moving element (`SnapPoint`). -/
structure SnapPoint : Type where
  x : ℚ
  y : ℚ
  deriving DecidableEq, Repr

/-- A guide line to render (`GuideLine`). -/
structure GuideLine : Type where
  type : LineKind
  coor : ℚ
  x : ℚ
  y : ℚ
  length : ℚ
  start : ℚ
  deriving DecidableEq, Repr

/-- Result of `calculateSnap` (`SnapResult`). -/
structure SnapResult : Type where
  dx : ℚ
  dy : ℚ
  guides : List GuideLine
  deriving DecidableEq, Repr

/-- `getSnapLines` from snapUtils.ts lines 31-67: three horizontal
(top/middle/bottom) and three vertical (left/center/right) lines for
rectangles and for the default case; for triangles, a horizontal and a
vertical line through each of the three vertices. -/
def getSnapLines (element : CanvasElement) : List SnapLine :=
  let x := element.x
  let y := element.y
  let width := element.width
  let height := element.height
  match element.payload with
  | .shape ShapeVariant.rectangle _ _ _ _ =>
    [⟨.horizontal, y, x, x + width⟩,
     ⟨.horizontal, y + height / 2, x, x + width⟩,
     ⟨.horizontal, y + height, x, x + width⟩,
     ⟨.vertical, x, y, y + height⟩,
     ⟨.vertical, x + width / 2, y, y + height⟩,
     ⟨.vertical, x + width, y, y + height⟩]
  | .shape ShapeVariant.triangle _ _ _ _ =>
    let vs : List Point := [⟨x + width / 2, y⟩, ⟨x + width, y + height⟩, ⟨x, y + height⟩]
    vs.flatMap (fun v =>
      [⟨.horizontal, v.y, x, x + width⟩, ⟨.vertical, v.x, y, y + height⟩])
  | _ =>
    [⟨.horizontal, y, x, x + width⟩,
     ⟨.horizontal, y + height / 2, x, x + width⟩,
     ⟨.horizontal, y + height, x, x + width⟩,
     ⟨.vertical, x, y, y + height⟩,
     ⟨.vertical, x + width / 2, y, y + height⟩,
     ⟨.vertical, x + width, y, y + height⟩]

/-- `getSnapPoints` from snapUtils.ts lines 70-95: the four corners plus
the center for rectangles and the default case; the three vertices for
triangles. -/
def getSnapPoints (element : CanvasElement) : List SnapPoint :=
  let x := element.x
  let y := element.y
  let width := element.width
  let height := element.height
  match element.payload with
  | .shape ShapeVariant.rectangle _ _ _ _ =>
    [⟨x, y⟩, ⟨x + width, y⟩, ⟨x, y + height⟩, ⟨x + width, y + height⟩,
     ⟨x + width / 2, y + height / 2⟩]
  | .shape ShapeVariant.triangle _ _ _ _ =>
    [⟨x + width / 2, y⟩, ⟨x + width, y + height⟩, ⟨x, y + height⟩]
  | _ =>
    [⟨x, y⟩, ⟨x + width, y⟩, ⟨x, y + height⟩, ⟨x + width, y + height⟩,
     ⟨x + width / 2, y + height / 2⟩]

/-- The non-moving elements (`otherElements` in `calculateSnap`). -/
def otherElementsOf (movingElements allElements : List CanvasElement) :
    List CanvasElement :=
  let movingIds := movingElements.map CanvasElement.id
  allElements.filter (fun el => !(movingIds.contains el.id))

/-- All candidate lines of the static elements (`staticLines`). -/
def staticLinesOf (movingElements allElements : List CanvasElement) :
    List SnapLine :=
  (otherElementsOf movingElements allElements).flatMap getSnapLines

/-- The snap points of the moving elements, each taken from its pre-drag
snapshot when available (`movingPoints`; the paired `baseElement` the
source also stores is never read afterwards and is dropped). -/
def movingPointsOf (movingElements : List CanvasElement)
    (startSnapshot : Nat → Option CanvasElement) : List SnapPoint :=
  movingElements.flatMap (fun el => getSnapPoints ((startSnapshot el.id).getD el))

/-- Every (moving point, static line) pair, in the visit order of the
source's nested loops (points outer, lines inner). -/
def snapPairs (points : List SnapPoint) (lines : List SnapLine) :
    List (SnapPoint × SnapLine) :=
  points.flatMap (fun p => lines.map (fun l => (p, l)))

/-- Accumulator of the closest-snap scan: per-axis minimal distance and
the correction of the pair achieving it. -/
structure SnapAcc : Type where
  minDistX : ℚ
  snapDx : ℚ
  minDistY : ℚ
  snapDy : ℚ
  deriving DecidableEq, Repr

/-- One step of the closest-snap scan (the loop body of snapUtils.ts lines
140-159): vertical lines compete on the x axis, horizontal on y; a pair
strictly closer than the current minimum replaces it. -/
def snapStep (originalDx originalDy : ℚ) (acc : SnapAcc)
    (pr : SnapPoint × SnapLine) : SnapAcc :=
  match pr.2.type with
  | .vertical =>
    let dist := |pr.1.x + originalDx - pr.2.value|
    if dist < acc.minDistX then
      { acc with minDistX := dist, snapDx := pr.2.value - pr.1.x - originalDx }
    else acc
  | .horizontal =>
    let dist := |pr.1.y + originalDy - pr.2.value|
    if dist < acc.minDistY then
      { acc with minDistY := dist, snapDy := pr.2.value - pr.1.y - originalDy }
    else acc

/-- The guide segments produced for one (point, line) pair at the final
position (snapUtils.ts lines 178-213). -/
def guidesFor (finalDx finalDy guideThreshold : ℚ) (p : SnapPoint)
    (line : SnapLine) : Option GuideLine :=
  match line.type with
  | .vertical =>
    let currentX := p.x + finalDx
    let currentY := p.y + finalDy
    if |currentX - line.value| ≤ guideThreshold then
      let startY := min line.start currentY
      let endY := max line.stop currentY
      some ⟨.vertical, line.value, line.value, startY, endY - startY, startY⟩
    else none
  | .horizontal =>
    let currentX := p.x + finalDx
    let currentY := p.y + finalDy
    if |currentY - line.value| ≤ guideThreshold then
      let startX := min line.start currentX
      let endX := max line.stop currentX
      some ⟨.horizontal, line.value, startX, line.value, endX - startX, startX⟩
    else none

/-- Deduplication of guides on the key (type, x, y, length, start),
keeping the first occurrence (snapUtils.ts lines 217-226; the source key
is the string of these five components). -/
def dedupGuides (guides : List GuideLine) : List GuideLine :=
  (guides.foldl
    (fun acc g =>
      let key := (g.type, g.x, g.y, g.length, g.start)
      if acc.2.contains key then acc else (acc.1 ++ [g], key :: acc.2))
    ([], [])).1

/-- `calculateSnap` from snapUtils.ts lines 97-233.  Returns the input
deltas with no guides when there is no static element; otherwise corrects
each axis by the closest in-threshold (point, line) pair and recomputes
the visible guides at the corrected position. -/
def calculateSnap (movingElements allElements : List CanvasElement)
    (originalDx originalDy : ℚ) (startSnapshot : Nat → Option CanvasElement)
    (threshold : ℚ) : SnapResult :=
  let otherElements := otherElementsOf movingElements allElements
  if otherElements.isEmpty then ⟨originalDx, originalDy, []⟩ else
  let staticLines := staticLinesOf movingElements allElements
  let movingPoints := movingPointsOf movingElements startSnapshot
  let acc := (snapPairs movingPoints staticLines).foldl
    (snapStep originalDx originalDy) ⟨threshold + 1, 0, threshold + 1, 0⟩
  let snapDx := if threshold < acc.minDistX then 0 else acc.snapDx
  let snapDy := if threshold < acc.minDistY then 0 else acc.snapDy
  let finalDx := originalDx + snapDx
  let finalDy := originalDy + snapDy
  let guideThreshold := threshold
  let guides := (snapPairs movingPoints staticLines).filterMap
    (fun pr => guidesFor finalDx finalDy guideThreshold pr.1 pr.2)
  ⟨finalDx, finalDy, dedupGuides guides⟩

/-! ## Undo/redo machinery for the inverse law -/

/-- An element-tree updater, the argument of `mutateElements`. -/
abbrev Updater := List CanvasElement → List CanvasElement

/-- A mutation committed through `mutateElements` with recordHistory =
true and no caller-supplied snapshot. -/
def commitMutation (u : Updater) (s : CanvasState) : CanvasState :=
  mutateElements u (some ⟨some true, none⟩) s

/-- A sequence of committed mutations, applied left to right. -/
def mutateSeq : List Updater → CanvasState → CanvasState
  | [], s => s
  | u :: us, s => mutateSeq us (commitMutation u s)

/-- The element tree after applying a sequence of updaters. -/
def applyAll : List Updater → List CanvasElement → List CanvasElement
  | [], e => e
  | u :: us, e => applyAll us (u e)

/-- The pre-mutation snapshots a sequence of committed mutations pushes
onto the history stack, oldest first. -/
def preTrees : List Updater → List CanvasElement → List (List CanvasElement)
  | [], _ => []
  | u :: us, e => e :: preTrees us (u e)

/-- Calling `undo` n times. -/
def undoTimes : Nat → CanvasState → CanvasState
  | 0, s => s
  | n + 1, s => undoTimes n (canvasReducer s .undo)

/-- Calling `redo` n times. -/
def redoTimes : Nat → CanvasState → CanvasState
  | 0, s => s
  | n + 1, s => redoTimes n (canvasReducer s .redo)

theorem preTrees_length (us : List Updater) (e : List CanvasElement) :
    (preTrees us e).length = us.length := by
  induction us generalizing e with
  | nil => rfl
  | cons u us ih => simp [preTrees, ih]

theorem commitMutation_eq (u : Updater) (s : CanvasState) :
    commitMutation u s =
      { s with
        elements := u s.elements
        history := s.history ++ [s.elements]
        redoStack := [] } := rfl

theorem mutateSeq_spec : ∀ (us : List Updater) (s : CanvasState), us ≠ [] →
    mutateSeq us s =
      { s with
        elements := applyAll us s.elements
        history := s.history ++ preTrees us s.elements
        redoStack := [] }
  | [u], s, _ => by
    simp [mutateSeq, commitMutation_eq, applyAll, preTrees]
  | u :: u2 :: us, s, _ => by
    have ih := mutateSeq_spec (u2 :: us) (commitMutation u s) (by simp)
    calc mutateSeq (u :: u2 :: us) s
        = mutateSeq (u2 :: us) (commitMutation u s) := rfl
      _ = _ := by
        rw [ih, commitMutation_eq]
        simp [applyAll, preTrees]

/-- Undoing once pops the last history entry, makes it current, pushes the
pre-undo tree onto the redo stack and clears the selection. -/
theorem undo_step (s : CanvasState) (h0 : List (List CanvasElement))
    (e : List CanvasElement) (hh : s.history = h0 ++ [e]) :
    canvasReducer s .undo =
      { s with
        elements := e
        history := h0
        redoStack := s.elements :: s.redoStack
        selectedIds := [] } := by
  simp [canvasReducer, hh, deepCopy, List.getLast?_concat, List.dropLast_concat]

theorem undoTimes_drain (snaps : List (List CanvasElement)) :
    ∀ (h0 : List (List CanvasElement)) (s : CanvasState),
    s.history = h0 ++ snaps → snaps ≠ [] →
    undoTimes snaps.length s =
      { s with
        elements := snaps.headD s.elements
        history := h0
        redoStack := snaps.tail ++ s.elements :: s.redoStack
        selectedIds := [] } := by
  induction snaps using List.reverseRecOn with
  | nil => intro h0 s _ hne; exact absurd rfl hne
  | append_singleton l e ih =>
    intro h0 s hh hne
    have hlen : (l ++ [e]).length = l.length + 1 := by simp
    have hstep : canvasReducer s .undo =
        { s with
          elements := e
          history := h0 ++ l
          redoStack := s.elements :: s.redoStack
          selectedIds := [] } := by
      apply undo_step
      rw [hh, List.append_assoc]
    rw [hlen]
    show undoTimes l.length (canvasReducer s .undo) = _
    rw [hstep]
    cases l with
    | nil => simp [undoTimes]
    | cons x l2 =>
      have ihx := ih h0
        { s with
          elements := e
          history := h0 ++ (x :: l2)
          redoStack := s.elements :: s.redoStack
          selectedIds := [] }
        (by simp) (by simp)
      rw [ihx]
      simp

theorem redoTimes_drain (q : List (List CanvasElement)) :
    ∀ (r0 : List (List CanvasElement)) (s : CanvasState),
    s.redoStack = q ++ r0 → q ≠ [] →
    redoTimes q.length s =
      { s with
        elements := q.getLastD s.elements
        history := s.history ++ s.elements :: q.dropLast
        redoStack := r0
        selectedIds := [] } := by
  induction q with
  | nil => intro r0 s _ hne; exact absurd rfl hne
  | cons x q2 ih =>
    intro r0 s hr hne
    have hstep : canvasReducer s .redo =
        { s with
          elements := x
          history := s.history ++ [s.elements]
          redoStack := q2 ++ r0
          selectedIds := [] } := by
      simp [canvasReducer, hr, deepCopy]
    show redoTimes q2.length (canvasReducer s .redo) = _
    rw [hstep]
    cases q2 with
    | nil => simp [redoTimes]
    | cons y q3 =>
      have ihx := ih r0
        { s with
          elements := x
          history := s.history ++ [s.elements]
          redoStack := (y :: q3) ++ r0
          selectedIds := [] }
        (by simp) (by simp)
      rw [ihx]
      simp only [List.getLastD_cons]
      obtain ⟨z, hz⟩ := Option.isSome_iff_exists.mp
        (List.getLast?_isSome.mpr (List.cons_ne_nil y q3))
      simp [List.getLastD, hz]


/-- A fold of `min acc (g c)` is bounded by its initial value. -/
theorem foldl_min_le_init {α β : Type} [LinearOrder α] (g : β → α)
    (l : List β) (a : α) : l.foldl (fun acc c => min acc (g c)) a ≤ a := by
  induction l generalizing a with
  | nil => simp
  | cons x xs ih =>
    exact le_trans (ih (min a (g x))) (min_le_left a (g x))

/-- A fold of `min acc (g c)` is bounded by `g` of every list member. -/
theorem foldl_min_le_mem {α β : Type} [LinearOrder α] (g : β → α)
    (l : List β) (a : α) (x : β) (hx : x ∈ l) :
    l.foldl (fun acc c => min acc (g c)) a ≤ g x := by
  induction l generalizing a with
  | nil => exact absurd hx (List.not_mem_nil x)
  | cons z zs ih =>
    rcases List.mem_cons.mp hx with h | h
    · subst h
      exact le_trans (foldl_min_le_init g zs (min a (g x)))
        (min_le_right a (g x))
    · exact ih (min a (g z)) h

/-- A fold of `min acc (g c)` is attained: it is the initial value or `g`
of some member. -/
theorem foldl_min_attained {α β : Type} [LinearOrder α] (g : β → α)
    (l : List β) (a : α) :
    l.foldl (fun acc c => min acc (g c)) a = a
    ∨ ∃ x ∈ l, l.foldl (fun acc c => min acc (g c)) a = g x := by
  induction l generalizing a with
  | nil => exact Or.inl rfl
  | cons z zs ih =>
    rcases ih (min a (g z)) with h | ⟨x, hx, hfx⟩
    · rcases min_choice a (g z) with hm | hm
      · left
        show List.foldl _ (min a (g z)) zs = a
        rw [h, hm]
      · right
        refine ⟨z, List.mem_cons_self z zs, ?_⟩
        show List.foldl _ (min a (g z)) zs = g z
        rw [h, hm]
    · exact Or.inr ⟨x, List.mem_cons_of_mem z hx, hfx⟩

/-- A fold of `max acc (g c)` dominates its initial value. -/
theorem foldl_max_ge_init {α β : Type} [LinearOrder α] (g : β → α)
    (l : List β) (a : α) : a ≤ l.foldl (fun acc c => max acc (g c)) a := by
  induction l generalizing a with
  | nil => simp
  | cons x xs ih =>
    exact le_trans (le_max_left a (g x)) (ih (max a (g x)))

/-- A fold of `max acc (g c)` dominates `g` of every list member. -/
theorem foldl_max_ge_mem {α β : Type} [LinearOrder α] (g : β → α)
    (l : List β) (a : α) (x : β) (hx : x ∈ l) :
    g x ≤ l.foldl (fun acc c => max acc (g c)) a := by
  induction l generalizing a with
  | nil => exact absurd hx (List.not_mem_nil x)
  | cons z zs ih =>
    rcases List.mem_cons.mp hx with h | h
    · subst h
      exact le_trans (le_max_right a (g x)) (foldl_max_ge_init g zs (max a (g x)))
    · exact ih (max a (g z)) h

/-- A fold of `max acc (g c)` is attained. -/
theorem foldl_max_attained {α β : Type} [LinearOrder α] (g : β → α)
    (l : List β) (a : α) :
    l.foldl (fun acc c => max acc (g c)) a = a
    ∨ ∃ x ∈ l, l.foldl (fun acc c => max acc (g c)) a = g x := by
  induction l generalizing a with
  | nil => exact Or.inl rfl
  | cons z zs ih =>
    rcases ih (max a (g z)) with h | ⟨x, hx, hfx⟩
    · rcases max_choice a (g z) with hm | hm
      · left
        show List.foldl _ (max a (g z)) zs = a
        rw [h, hm]
      · right
        refine ⟨z, List.mem_cons_self z zs, ?_⟩
        show List.foldl _ (max a (g z)) zs = g z
        rw [h, hm]
    · exact Or.inr ⟨x, List.mem_cons_of_mem z hx, hfx⟩


/-- After any number of scan steps the per-axis minimal distances can only
shrink. -/
theorem snapFold_le_init (dx0 dy0 : ℚ) (pairs : List (SnapPoint × SnapLine)) :
    ∀ acc : SnapAcc,
    (pairs.foldl (snapStep dx0 dy0) acc).minDistX ≤ acc.minDistX
    ∧ (pairs.foldl (snapStep dx0 dy0) acc).minDistY ≤ acc.minDistY := by
  induction pairs with
  | nil => intro acc; exact ⟨le_refl _, le_refl _⟩
  | cons q rest ih =>
    intro acc
    have hstep : (snapStep dx0 dy0 acc q).minDistX ≤ acc.minDistX
        ∧ (snapStep dx0 dy0 acc q).minDistY ≤ acc.minDistY := by
      unfold snapStep
      cases hq : q.2.type
      · simp only
        split
        · next hlt => exact ⟨le_refl _, le_of_lt hlt⟩
        · exact ⟨le_refl _, le_refl _⟩
      · simp only
        split
        · next hlt => exact ⟨le_of_lt hlt, le_refl _⟩
        · exact ⟨le_refl _, le_refl _⟩
    exact ⟨le_trans (ih (snapStep dx0 dy0 acc q)).1 hstep.1,
      le_trans (ih (snapStep dx0 dy0 acc q)).2 hstep.2⟩

/-- The scan result is bounded by the distance of every vertical pair (on
the x axis) and of every horizontal pair (on the y axis). -/
theorem snapFold_le_mem (dx0 dy0 : ℚ) (pairs : List (SnapPoint × SnapLine)) :
    ∀ (acc : SnapAcc) (pr : SnapPoint × SnapLine), pr ∈ pairs →
    (pr.2.type = .vertical →
      (pairs.foldl (snapStep dx0 dy0) acc).minDistX ≤ |pr.1.x + dx0 - pr.2.value|)
    ∧ (pr.2.type = .horizontal →
      (pairs.foldl (snapStep dx0 dy0) acc).minDistY ≤ |pr.1.y + dy0 - pr.2.value|) := by
  induction pairs with
  | nil => intro acc pr hmem; exact absurd hmem (List.not_mem_nil pr)
  | cons q rest ih =>
    intro acc pr hmem
    rcases List.mem_cons.mp hmem with h | h
    · subst h
      constructor
      · intro hv
        have h1 : (snapStep dx0 dy0 acc pr).minDistX ≤ |pr.1.x + dx0 - pr.2.value| := by
          unfold snapStep
          rw [hv]
          simp only
          split
          · exact le_refl _
          · next hge => exact le_of_not_lt hge
        exact le_trans (snapFold_le_init dx0 dy0 rest (snapStep dx0 dy0 acc pr)).1 h1
      · intro hh
        have h1 : (snapStep dx0 dy0 acc pr).minDistY ≤ |pr.1.y + dy0 - pr.2.value| := by
          unfold snapStep
          rw [hh]
          simp only
          split
          · exact le_refl _
          · next hge => exact le_of_not_lt hge
        exact le_trans (snapFold_le_init dx0 dy0 rest (snapStep dx0 dy0 acc pr)).2 h1
    · exact ih (snapStep dx0 dy0 acc q) pr h

/-- The scan result on the x axis is attained: either nothing beat the
initial accumulator, or some vertical pair realises the minimal distance
and supplied the stored correction. -/
theorem snapFold_attainedX (dx0 dy0 : ℚ) (pairs : List (SnapPoint × SnapLine)) :
    ∀ acc : SnapAcc,
    ((pairs.foldl (snapStep dx0 dy0) acc).minDistX = acc.minDistX
      ∧ (pairs.foldl (snapStep dx0 dy0) acc).snapDx = acc.snapDx)
    ∨ ∃ pr ∈ pairs, pr.2.type = .vertical
        ∧ (pairs.foldl (snapStep dx0 dy0) acc).minDistX = |pr.1.x + dx0 - pr.2.value|
        ∧ (pairs.foldl (snapStep dx0 dy0) acc).snapDx = pr.2.value - pr.1.x - dx0 := by
  induction pairs with
  | nil => intro acc; exact Or.inl ⟨rfl, rfl⟩
  | cons q rest ih =>
    intro acc
    rcases ih (snapStep dx0 dy0 acc q) with ⟨h1, h2⟩ | ⟨pr, hmem, hv, hd, hc⟩
    · cases hq : q.2.type
      · left
        have hx : (snapStep dx0 dy0 acc q).minDistX = acc.minDistX
            ∧ (snapStep dx0 dy0 acc q).snapDx = acc.snapDx := by
          unfold snapStep
          rw [hq]
          simp only
          split
          · exact ⟨rfl, rfl⟩
          · exact ⟨rfl, rfl⟩
        exact ⟨h1.trans hx.1, h2.trans hx.2⟩
      · by_cases hlt : |q.1.x + dx0 - q.2.value| < acc.minDistX
        · right
          refine ⟨q, List.mem_cons_self q rest, hq, ?_, ?_⟩
          · rw [List.foldl_cons, h1]
            unfold snapStep
            rw [hq]
            simp only
            rw [if_pos hlt]
          · rw [List.foldl_cons, h2]
            unfold snapStep
            rw [hq]
            simp only
            rw [if_pos hlt]
        · left
          have hx : (snapStep dx0 dy0 acc q).minDistX = acc.minDistX
              ∧ (snapStep dx0 dy0 acc q).snapDx = acc.snapDx := by
            unfold snapStep
            rw [hq]
            simp only
            rw [if_neg hlt]
            exact ⟨rfl, rfl⟩
          exact ⟨h1.trans hx.1, h2.trans hx.2⟩
    · exact Or.inr ⟨pr, List.mem_cons_of_mem q hmem, hv, hd, hc⟩

/-- The scan result on the y axis is attained. -/
theorem snapFold_attainedY (dx0 dy0 : ℚ) (pairs : List (SnapPoint × SnapLine)) :
    ∀ acc : SnapAcc,
    ((pairs.foldl (snapStep dx0 dy0) acc).minDistY = acc.minDistY
      ∧ (pairs.foldl (snapStep dx0 dy0) acc).snapDy = acc.snapDy)
    ∨ ∃ pr ∈ pairs, pr.2.type = .horizontal
        ∧ (pairs.foldl (snapStep dx0 dy0) acc).minDistY = |pr.1.y + dy0 - pr.2.value|
        ∧ (pairs.foldl (snapStep dx0 dy0) acc).snapDy = pr.2.value - pr.1.y - dy0 := by
  induction pairs with
  | nil => intro acc; exact Or.inl ⟨rfl, rfl⟩
  | cons q rest ih =>
    intro acc
    rcases ih (snapStep dx0 dy0 acc q) with ⟨h1, h2⟩ | ⟨pr, hmem, hv, hd, hc⟩
    · cases hq : q.2.type
      · by_cases hlt : |q.1.y + dy0 - q.2.value| < acc.minDistY
        · right
          refine ⟨q, List.mem_cons_self q rest, hq, ?_, ?_⟩
          · rw [List.foldl_cons, h1]
            unfold snapStep
            rw [hq]
            simp only
            rw [if_pos hlt]
          · rw [List.foldl_cons, h2]
            unfold snapStep
            rw [hq]
            simp only
            rw [if_pos hlt]
        · left
          have hx : (snapStep dx0 dy0 acc q).minDistY = acc.minDistY
              ∧ (snapStep dx0 dy0 acc q).snapDy = acc.snapDy := by
            unfold snapStep
            rw [hq]
            simp only
            rw [if_neg hlt]
            exact ⟨rfl, rfl⟩
          exact ⟨h1.trans hx.1, h2.trans hx.2⟩
      · left
        have hx : (snapStep dx0 dy0 acc q).minDistY = acc.minDistY
            ∧ (snapStep dx0 dy0 acc q).snapDy = acc.snapDy := by
          unfold snapStep
          rw [hq]
          simp only
          split
          · exact ⟨rfl, rfl⟩
          · exact ⟨rfl, rfl⟩
        exact ⟨h1.trans hx.1, h2.trans hx.2⟩
    · exact Or.inr ⟨pr, List.mem_cons_of_mem q hmem, hv, hd, hc⟩


@[simp]
theorem translate_id (el : CanvasElement) (dx dy : ℚ) :
    (el.translate dx dy).id = el.id := by cases el; rfl

@[simp]
theorem translate_x (el : CanvasElement) (dx dy : ℚ) :
    (el.translate dx dy).x = el.x + dx := by cases el; rfl

@[simp]
theorem translate_y (el : CanvasElement) (dx dy : ℚ) :
    (el.translate dx dy).y = el.y + dy := by cases el; rfl

@[simp]
theorem translate_width (el : CanvasElement) (dx dy : ℚ) :
    (el.translate dx dy).width = el.width := by cases el; rfl

@[simp]
theorem translate_height (el : CanvasElement) (dx dy : ℚ) :
    (el.translate dx dy).height = el.height := by cases el; rfl

@[simp]
theorem translate_rotation (el : CanvasElement) (dx dy : ℚ) :
    (el.translate dx dy).rotation = el.rotation := by cases el; rfl

@[simp]
theorem translate_payload (el : CanvasElement) (dx dy : ℚ) :
    (el.translate dx dy).payload = el.payload := by cases el; rfl

@[simp]
theorem withId_id (el : CanvasElement) (i : Nat) :
    (el.withId i).id = i := by cases el; rfl

@[simp]
theorem withId_x (el : CanvasElement) (i : Nat) :
    (el.withId i).x = el.x := by cases el; rfl

@[simp]
theorem withId_y (el : CanvasElement) (i : Nat) :
    (el.withId i).y = el.y := by cases el; rfl

@[simp]
theorem withId_width (el : CanvasElement) (i : Nat) :
    (el.withId i).width = el.width := by cases el; rfl

@[simp]
theorem withId_height (el : CanvasElement) (i : Nat) :
    (el.withId i).height = el.height := by cases el; rfl

@[simp]
theorem withId_rotation (el : CanvasElement) (i : Nat) :
    (el.withId i).rotation = el.rotation := by cases el; rfl

@[simp]
theorem withId_payload (el : CanvasElement) (i : Nat) :
    (el.withId i).payload = el.payload := by cases el; rfl

@[simp]
theorem withPos_id (el : CanvasElement) (nx ny : ℚ) :
    (el.withPos nx ny).id = el.id := by cases el; rfl

@[simp]
theorem withPos_x (el : CanvasElement) (nx ny : ℚ) :
    (el.withPos nx ny).x = nx := by cases el; rfl

@[simp]
theorem withPos_y (el : CanvasElement) (nx ny : ℚ) :
    (el.withPos nx ny).y = ny := by cases el; rfl

@[simp]
theorem withPos_width (el : CanvasElement) (nx ny : ℚ) :
    (el.withPos nx ny).width = el.width := by cases el; rfl

@[simp]
theorem withPos_height (el : CanvasElement) (nx ny : ℚ) :
    (el.withPos nx ny).height = el.height := by cases el; rfl

@[simp]
theorem withPos_rotation (el : CanvasElement) (nx ny : ℚ) :
    (el.withPos nx ny).rotation = el.rotation := by cases el; rfl

@[simp]
theorem withPos_payload (el : CanvasElement) (nx ny : ℚ) :
    (el.withPos nx ny).payload = el.payload := by cases el; rfl


@[simp]
theorem id_mk (i : Nat) (nm : String) (x y w h r o : ℚ) (p : ElemPayload) :
    (CanvasElement.mk i nm x y w h r o p).id = i := rfl

@[simp]
theorem name_mk (i : Nat) (nm : String) (x y w h r o : ℚ) (p : ElemPayload) :
    (CanvasElement.mk i nm x y w h r o p).name = nm := rfl

@[simp]
theorem x_mk (i : Nat) (nm : String) (x y w h r o : ℚ) (p : ElemPayload) :
    (CanvasElement.mk i nm x y w h r o p).x = x := rfl

@[simp]
theorem y_mk (i : Nat) (nm : String) (x y w h r o : ℚ) (p : ElemPayload) :
    (CanvasElement.mk i nm x y w h r o p).y = y := rfl

@[simp]
theorem width_mk (i : Nat) (nm : String) (x y w h r o : ℚ) (p : ElemPayload) :
    (CanvasElement.mk i nm x y w h r o p).width = w := rfl

@[simp]
theorem height_mk (i : Nat) (nm : String) (x y w h r o : ℚ) (p : ElemPayload) :
    (CanvasElement.mk i nm x y w h r o p).height = h := rfl

@[simp]
theorem rotation_mk (i : Nat) (nm : String) (x y w h r o : ℚ) (p : ElemPayload) :
    (CanvasElement.mk i nm x y w h r o p).rotation = r := rfl

@[simp]
theorem payload_mk (i : Nat) (nm : String) (x y w h r o : ℚ) (p : ElemPayload) :
    (CanvasElement.mk i nm x y w h r o p).payload = p := rfl

/-- An element is a group exactly when its payload is a `group`. -/
theorem isGroup_iff_payload (el : CanvasElement) :
    el.isGroup = true ↔ ∃ cs, el.payload = ElemPayload.group cs := by
  cases el with
  | mk i n x y w h r o p =>
    cases p <;> simp [CanvasElement.isGroup, CanvasElement.payload]

@[simp]
theorem isGroup_translate (el : CanvasElement) (dx dy : ℚ) :
    (el.translate dx dy).isGroup = el.isGroup := by
  cases el with
  | mk i n x y w h r o p => cases p <;> rfl

@[simp]
theorem isGroup_withId (el : CanvasElement) (i : Nat) :
    (el.withId i).isGroup = el.isGroup := by
  cases el with
  | mk i2 n x y w h r o p => cases p <;> rfl

@[simp]
theorem isGroup_withPos (el : CanvasElement) (nx ny : ℚ) :
    (el.withPos nx ny).isGroup = el.isGroup := by
  cases el with
  | mk i n x y w h r o p => cases p <;> rfl

/-- The absolute geometry of every leaf descendant of a child list, in
depth-first order, with the accumulated parent offset applied — the
observable outcome of the recursive reparenting walk of ungroup. -/
def flattenLeafGeoms : List CanvasElement → ℚ → ℚ → List (ℚ × ℚ × ℚ × ℚ × ℚ)
  | [], _, _ => []
  | child :: rest, px, py =>
    match hp : child.payload with
    | .group cs =>
      flattenLeafGeoms cs (child.x + px) (child.y + py)
        ++ flattenLeafGeoms rest px py
    | _ =>
      (child.x + px, child.y + py, child.width, child.height, child.rotation)
        :: flattenLeafGeoms rest px py
termination_by children _ _ => sizeOf children
decreasing_by
  · cases child with
    | mk i nm x y w h r o p =>
      simp only [CanvasElement.payload] at hp
      subst hp
      simp
      omega
  · simp
  · simp

/-- Every element id occurring in a child tree, the nested ones included. -/
def idsIn : List CanvasElement → List Nat
  | [] => []
  | CanvasElement.mk i nm x y w h r o (ElemPayload.group cs) :: rest =>
    i :: (idsIn cs ++ idsIn rest)
  | child :: rest => child.id :: idsIn rest
termination_by children => sizeOf children
decreasing_by
  all_goals first
    | (simp; omega)
    | simp


/-- Unfolding of `processChildren` at a group child: the group itself
consumes a fresh id but only its recursively processed children are
emitted. -/
theorem processChildren_cons_group (i : Nat) (nm : String) (x y w h r o : ℚ)
    (cs : List CanvasElement) (rest : List CanvasElement) (px py : ℚ) (n : Nat) :
    processChildren (CanvasElement.mk i nm x y w h r o (ElemPayload.group cs) :: rest) px py n
      = ((processChildren cs (x + px) (y + py) (n + 1)).1
          ++ (processChildren rest px py
              (processChildren cs (x + px) (y + py) (n + 1)).2.2).1,
         n :: ((processChildren cs (x + px) (y + py) (n + 1)).2.1
          ++ (processChildren rest px py
              (processChildren cs (x + px) (y + py) (n + 1)).2.2).2.1),
         (processChildren rest px py
            (processChildren cs (x + px) (y + py) (n + 1)).2.2).2.2) := by
  simp [processChildren, deepCopy, CanvasElement.translate, CanvasElement.payload,
    CanvasElement.x, CanvasElement.y]

/-- Unfolding of `processChildren` at a non-group child: it is reparented
to the accumulated offset and emitted with a fresh id. -/
theorem processChildren_cons_leaf (el : CanvasElement)
    (rest : List CanvasElement) (px py : ℚ) (n : Nat) (h : el.isGroup = false) :
    processChildren (el :: rest) px py n
      = (((el.translate px py).withId n) :: (processChildren rest px py (n + 1)).1,
         n :: (processChildren rest px py (n + 1)).2.1,
         (processChildren rest px py (n + 1)).2.2) := by
  cases el with
  | mk i nm x y w h r o p =>
    cases p with
    | group cs => exact absurd h (by simp [CanvasElement.isGroup])
    | shape v f s sw cr =>
      simp [processChildren, deepCopy, CanvasElement.translate,
        CanvasElement.payload, CanvasElement.withId]
    | text c fs col =>
      simp [processChildren, deepCopy, CanvasElement.translate,
        CanvasElement.payload, CanvasElement.withId]
    | image s br =>
      simp [processChildren, deepCopy, CanvasElement.translate,
        CanvasElement.payload, CanvasElement.withId]

/-- Unfolding of `flattenLeafGeoms` at a group child. -/
theorem flattenLeafGeoms_cons_group (i : Nat) (nm : String) (x y w h r o : ℚ)
    (cs : List CanvasElement) (rest : List CanvasElement) (px py : ℚ) :
    flattenLeafGeoms (CanvasElement.mk i nm x y w h r o (ElemPayload.group cs) :: rest) px py
      = flattenLeafGeoms cs (x + px) (y + py) ++ flattenLeafGeoms rest px py := by
  simp [flattenLeafGeoms, CanvasElement.payload, CanvasElement.x, CanvasElement.y]

/-- Unfolding of `flattenLeafGeoms` at a non-group child. -/
theorem flattenLeafGeoms_cons_leaf (el : CanvasElement)
    (rest : List CanvasElement) (px py : ℚ) (h : el.isGroup = false) :
    flattenLeafGeoms (el :: rest) px py
      = (el.x + px, el.y + py, el.width, el.height, el.rotation)
        :: flattenLeafGeoms rest px py := by
  cases el with
  | mk i nm x y w h r o p =>
    cases p with
    | group cs => exact absurd h (by simp [CanvasElement.isGroup])
    | shape v f s sw cr =>
      simp [flattenLeafGeoms, CanvasElement.payload, CanvasElement.x,
        CanvasElement.y, CanvasElement.width, CanvasElement.height,
        CanvasElement.rotation]
    | text c fs col =>
      simp [flattenLeafGeoms, CanvasElement.payload, CanvasElement.x,
        CanvasElement.y, CanvasElement.width, CanvasElement.height,
        CanvasElement.rotation]
    | image s br =>
      simp [flattenLeafGeoms, CanvasElement.payload, CanvasElement.x,
        CanvasElement.y, CanvasElement.width, CanvasElement.height,
        CanvasElement.rotation]

/-- Full characterization of the recursive ungroup walk: the emitted
elements realize exactly the depth-first absolute leaf geometries, none of
them is a group, their ids are fresh (at least the starting counter,
below the final counter), pairwise distinct, and the counter never
decreases. -/
theorem processChildren_spec (cs0 : List CanvasElement) (px0 py0 : ℚ) (n0 : Nat) :
    ((processChildren cs0 px0 py0 n0).1.map geomOf = flattenLeafGeoms cs0 px0 py0)
    ∧ (∀ el ∈ (processChildren cs0 px0 py0 n0).1, el.isGroup = false)
    ∧ (∀ el ∈ (processChildren cs0 px0 py0 n0).1,
        n0 ≤ el.id ∧ el.id < (processChildren cs0 px0 py0 n0).2.2)
    ∧ ((processChildren cs0 px0 py0 n0).1.map CanvasElement.id).Nodup
    ∧ n0 ≤ (processChildren cs0 px0 py0 n0).2.2 := by
  induction cs0, px0, py0, n0 using processChildren.induct with
  | case1 px py n =>
    simp [processChildren, flattenLeafGeoms]
  | case2 child rest px py n moved cs hp inner ih1 ih2 ih3 =>
    clear ih2
    cases child with
    | mk i nm x y w h r o p =>
      unfold inner at ih3
      unfold moved at hp ih1 ih3
      simp only [deepCopy, CanvasElement.translate, CanvasElement.payload,
        CanvasElement.x, CanvasElement.y] at hp ih1 ih3
      subst hp
      rw [processChildren_cons_group, flattenLeafGeoms_cons_group]
      obtain ⟨ha1, ha2, ha3, ha4, ha5⟩ := ih1
      obtain ⟨hb1, hb2, hb3, hb4, hb5⟩ := ih3
      refine ⟨?_, ?_, ?_, ?_, ?_⟩
      · simp only [List.map_append]
        rw [ha1, hb1]
      · intro el hel
        rcases List.mem_append.mp hel with hm | hm
        · exact ha2 el hm
        · exact hb2 el hm
      · intro el hel
        rcases List.mem_append.mp hel with hm | hm
        · obtain ⟨hlo, hhi⟩ := ha3 el hm
          exact ⟨le_trans (Nat.le_succ n) hlo, lt_of_lt_of_le hhi hb5⟩
        · obtain ⟨hlo, hhi⟩ := hb3 el hm
          exact ⟨le_trans (le_trans (Nat.le_succ n) ha5) hlo, hhi⟩
      · simp only [List.map_append]
        refine List.Nodup.append ha4 hb4 ?_
        rw [List.disjoint_left]
        intro a hma hmb
        obtain ⟨ela, hela, helaid⟩ := List.mem_map.mp hma
        obtain ⟨elb, helb, helbid⟩ := List.mem_map.mp hmb
        obtain ⟨_, hhia⟩ := ha3 ela hela
        obtain ⟨hlob, _⟩ := hb3 elb helb
        rw [helaid] at hhia
        rw [helbid] at hlob
        omega
      · exact le_trans (le_trans (Nat.le_succ n) ha5) hb5
  | case3 child rest px py n moved hng ih =>
    have hleaf : child.isGroup = false := by
      unfold moved at hng
      cases child with
      | mk i nm x y w h r o p =>
        cases p with
        | group cs =>
          exact absurd (hng cs (by
            simp [deepCopy, CanvasElement.translate, CanvasElement.payload]))
            not_false
        | shape v f s sw cr => rfl
        | text c fs col => rfl
        | image s br => rfl
    rw [processChildren_cons_leaf child rest px py n hleaf,
      flattenLeafGeoms_cons_leaf child rest px py hleaf]
    obtain ⟨hb1, hb2, hb3, hb4, hb5⟩ := ih
    refine ⟨?_, ?_, ?_, ?_, ?_⟩
    · simp only [List.map_cons]
      rw [hb1]
      simp [geomOf]
    · intro el hel
      rcases List.mem_cons.mp hel with hm | hm
      · subst hm
        simp [hleaf]
      · exact hb2 el hm
    · intro el hel
      rcases List.mem_cons.mp hel with hm | hm
      · subst hm
        simp only [withId_id]
        exact ⟨le_refl n, lt_of_lt_of_le (Nat.lt_succ_self n) hb5⟩
      · obtain ⟨hlo, hhi⟩ := hb3 el hm
        exact ⟨le_trans (Nat.le_succ n) hlo, hhi⟩
    · simp only [List.map_cons, List.nodup_cons, withId_id]
      refine ⟨?_, hb4⟩
      intro hmem
      obtain ⟨elb, helb, helbid⟩ := List.mem_map.mp hmem
      obtain ⟨hlob, _⟩ := hb3 elb helb
      omega
    · exact le_trans (Nat.le_succ n) hb5


/-- On a list of non-group children the flattening walk is a plain
reparenting map. -/
theorem flattenLeafGeoms_all_leaves (cs : List CanvasElement) (px py : ℚ)
    (h : ∀ c ∈ cs, c.isGroup = false) :
    flattenLeafGeoms cs px py
      = cs.map (fun c => (c.x + px, c.y + py, c.width, c.height, c.rotation)) := by
  induction cs with
  | nil => simp [flattenLeafGeoms]
  | cons c rest ih =>
    rw [flattenLeafGeoms_cons_leaf c rest px py (h c (List.mem_cons_self c rest))]
    rw [ih (fun x hx => h x (List.mem_cons_of_mem c hx))]
    simp

/-- `find?` skips a prefix on which the predicate is everywhere false. -/
theorem find?_append_of_none {α : Type} (p : α → Bool) (l1 l2 : List α)
    (h : ∀ x ∈ l1, p x = false) :
    (l1 ++ l2).find? p = l2.find? p := by
  induction l1 with
  | nil => rfl
  | cons a rest ih =>
    rw [List.cons_append, List.find?_cons_of_neg _
      (by rw [h a (List.mem_cons_self a rest)]; exact Bool.false_ne_true)]
    exact ih (fun x hx => h x (List.mem_cons_of_mem a hx))


/-- Unfolding of `idsIn` at a group child. -/
theorem idsIn_cons_group (i : Nat) (nm : String) (x y w h r o : ℚ)
    (cs : List CanvasElement) (rest : List CanvasElement) :
    idsIn (CanvasElement.mk i nm x y w h r o (ElemPayload.group cs) :: rest)
      = i :: (idsIn cs ++ idsIn rest) := by
  simp [idsIn]

/-- Unfolding of `idsIn` at a non-group child. -/
theorem idsIn_cons_leaf (el : CanvasElement) (rest : List CanvasElement)
    (h : el.isGroup = false) :
    idsIn (el :: rest) = el.id :: idsIn rest := by
  cases el with
  | mk i nm x y w h r o p =>
    cases p with
    | group cs => exact absurd h (by simp [CanvasElement.isGroup])
    | shape v f s sw cr => simp [idsIn]
    | text c fs col => simp [idsIn]
    | image s br => simp [idsIn]

/-- `idsIn` of the empty list. -/
theorem idsIn_nil : idsIn [] = [] := by simp [idsIn]

/-- What `groupElements` produces when the guard passes and the selection
matches at least one element: the selected elements are replaced by a
single fresh-id group whose children are the selected elements
repositioned relative to the box, the group id becomes the selection, and
the id counter advances. -/
theorem groupElements_spec (ps : ProviderState)
    (hguard : ¬ ps.canvas.selectedIds.length ≤ 1)
    (first : CanvasElement) (rest : List CanvasElement)
    (hse : ps.canvas.elements.filter
        (fun el => ps.canvas.selectedIds.contains el.id) = first :: rest) :
    ∃ (nm : String) (minX minY w h : ℚ),
      (groupElements ps).canvas.elements
        = ps.canvas.elements.filter
            (fun el => !(ps.canvas.selectedIds.contains el.id))
          ++ [CanvasElement.mk ps.nextId nm minX minY w h 0 1
              (ElemPayload.group ((first :: rest).map
                (fun el => el.withPos (el.x - minX) (el.y - minY))))]
      ∧ (groupElements ps).canvas.selectedIds = [ps.nextId]
      ∧ (groupElements ps).nextId = ps.nextId + 1
      ∧ (groupElements ps).clipboard = ps.clipboard
      ∧ (groupElements ps).pasteCount = ps.pasteCount := by
  refine ⟨"组 " ++ toString
      ((ps.canvas.elements.filter (fun el => el.isGroup)).length + 1),
    (first :: rest).foldl (fun acc el => min acc el.x) first.x,
    (first :: rest).foldl (fun acc el => min acc el.y) first.y,
    (first :: rest).foldl (fun acc el => max acc (el.x + el.width))
        (first.x + first.width)
      - (first :: rest).foldl (fun acc el => min acc el.x) first.x,
    (first :: rest).foldl (fun acc el => max acc (el.y + el.height))
        (first.y + first.height)
      - (first :: rest).foldl (fun acc el => min acc el.y) first.y,
    ?_, ?_, ?_, ?_, ?_⟩ <;>
  · unfold groupElements
    rw [if_neg hguard]
    simp only [hse]
    try simp [mutateElements, canvasReducer, deepCopy]

/-! ## Theorems -/

/-- A concrete empty canvas state used by witnesses. -/
def initialStateW : CanvasState :=
  { elements := []
    selectedIds := []
    zoom := 1
    pan := ⟨0, 0⟩
    interactionMode := .select
    history := []
    redoStack := []
    artboard := none
    editingTextId := none }


/-- A concrete provider state with empty canvas, clipboard and stacks. -/
def provWitnessEmpty : ProviderState :=
  { canvas := initialStateW, clipboard := [], pasteCount := 1, nextId := 0 }

/-- A concrete provider state whose single selected id (5) matches no
element. -/
def provWitnessSel5 : ProviderState :=
  { canvas := { initialStateW with selectedIds := [5] }
    clipboard := [], pasteCount := 1, nextId := 0 }

/-- The single element at (10,10) of the paste-offset scenario. -/
def elemAt1010 : CanvasElement :=
  .mk 1 "rect" 10 10 100 50 0 1 (.shape .rectangle "#ffffff" "#0f172a" 1 0)

/-- The start state of the paste-offset scenario: one selected element at
(10,10); the next fresh id is 2. -/
def pasteScenarioStart : ProviderState :=
  { canvas := { initialStateW with elements := [elemAt1010], selectedIds := [1] }
    clipboard := [], pasteCount := 1, nextId := 2 }

/-- A concrete provider state whose clipboard holds one element. -/
def provWitnessPaste : ProviderState :=
  { canvas := initialStateW, clipboard := [elemAt1010], pasteCount := 1, nextId := 2 }

/-- The element at (0,0,100,50) rotated 90 degrees used by the bounding
box scenario. -/
def rotElement : CanvasElement :=
  .mk 1 "r" 0 0 100 50 90 1 (.shape .rectangle "#ffffff" "#0f172a" 1 0)

/-- A concrete cos/sin table: exact values at 90 degrees, arbitrary
elsewhere. -/
def trigW : ℚ → ℚ × ℚ := fun θ => if θ = 90 then (0, 1) else (1, 0)

/-- Element A of the drag-with-snap scenario: (0,0,100,100). -/
def elemA : CanvasElement :=
  .mk 1 "A" 0 0 100 100 0 1 (.shape .rectangle "#ffffff" "#0f172a" 1 0)

/-- Element B of the drag-with-snap scenario as the spec states it:
(205,0,100,100). -/
def elemB205 : CanvasElement :=
  .mk 2 "B" 205 0 100 100 0 1 (.shape .rectangle "#ffffff" "#0f172a" 1 0)

/-- Element B placed at (105,0,100,100), the position at which dragging
left by 6 does snap B's left edge onto A's right edge. -/
def elemB105 : CanvasElement :=
  .mk 2 "B" 105 0 100 100 0 1 (.shape .rectangle "#ffffff" "#0f172a" 1 0)

/-- The pre-drag snapshot of B at (205,0). -/
def snapshotB205 : Nat → Option CanvasElement :=
  fun i => if i == 2 then some elemB205 else none

/-- The pre-drag snapshot of B at (105,0). -/
def snapshotB105 : Nat → Option CanvasElement :=
  fun i => if i == 2 then some elemB105 else none

/-- A leaf element selected in the C2 counterexample state. -/
def c2leafA : CanvasElement :=
  .mk 1 "A" 0 0 10 10 0 1 (.shape .rectangle "#ffffff" "#0f172a" 1 0)

/-- The leaf inside the group of the C2 counterexample state. -/
def c2innerLeaf : CanvasElement :=
  .mk 10 "c" 5 5 7 7 0 1 (.shape .rectangle "#ffffff" "#0f172a" 1 0)

/-- A group element selected in the C2 counterexample state. -/
def c2groupG : CanvasElement := .mk 2 "G" 20 0 30 30 0 1 (.group [c2innerLeaf])

/-- The C2 counterexample state: a leaf and a group, both selected. -/
def c2start : ProviderState :=
  { canvas := { initialStateW with
      elements := [c2leafA, c2groupG], selectedIds := [1, 2] }
    clipboard := [], pasteCount := 1, nextId := 11 }

/-- First selected leaf of the C2 witness state. -/
def c2wleafA : CanvasElement :=
  .mk 1 "A" 0 0 10 10 0 1 (.shape .rectangle "#ffffff" "#0f172a" 1 0)

/-- Second selected leaf of the C2 witness state. -/
def c2wleafB : CanvasElement :=
  .mk 2 "B" 40 5 6 8 0 1 (.shape .rectangle "#ffffff" "#0f172a" 1 0)

/-- The C2 witness state: two selected non-group elements. -/
def c2wit : ProviderState :=
  { canvas := { initialStateW with
      elements := [c2wleafA, c2wleafB], selectedIds := [1, 2] }
    clipboard := [], pasteCount := 1, nextId := 3 }

/-- The leaf nested two groups deep in the C3 state. -/
def c3leafL : CanvasElement :=
  .mk 3 "L" 17 19 8 9 0 1 (.shape .rectangle "#ffffff" "#0f172a" 1 0)

/-- The nested group (immediate child of the selected group) in the C3
state. -/
def c3groupH : CanvasElement := .mk 2 "H" 11 13 30 30 0 1 (.group [c3leafL])

/-- The selected outer group of the C3 state. -/
def c3groupG : CanvasElement := .mk 1 "G" 5 7 40 40 0 1 (.group [c3groupH])

/-- The C3 state: one selected group whose only immediate child is itself
a group. -/
def c3start : ProviderState :=
  { canvas := { initialStateW with elements := [c3groupG], selectedIds := [1] }
    clipboard := [], pasteCount := 1, nextId := 4 }

/-- C1 — undo/redo inverse law: starting from any state, after a sequence
of n mutations each committed through `mutateElements` with recordHistory
= true, undoing n times restores the element tree from before the first
mutation, and then redoing n times restores the tree from after the last
mutation; moreover undo on an empty history stack and redo on an empty
redo stack leave the state entirely unchanged. -/
theorem claim_C1_undo_redo_inverse (s : CanvasState) (us : List Updater)
    (t1 t2 : CanvasState) (h1 : t1.history = []) (h2 : t2.redoStack = []) :
    (undoTimes us.length (mutateSeq us s)).elements = s.elements
    ∧ (redoTimes us.length (undoTimes us.length (mutateSeq us s))).elements
        = (mutateSeq us s).elements
    ∧ canvasReducer t1 .undo = t1
    ∧ canvasReducer t2 .redo = t2 := by
  have noop1 : canvasReducer t1 .undo = t1 := by
    simp [canvasReducer, h1]
  have noop2 : canvasReducer t2 .redo = t2 := by
    cases hr : t2.redoStack with
    | nil => simp [canvasReducer, hr]
    | cons a l => rw [h2] at hr; exact absurd hr (by simp)
  cases us with
  | nil => exact ⟨rfl, rfl, noop1, noop2⟩
  | cons u us2 =>
    have hspec := mutateSeq_spec (u :: us2) s (by simp)
    have hlen : (preTrees (u :: us2) s.elements).length = (u :: us2).length :=
      preTrees_length _ _
    have hundo := undoTimes_drain (preTrees (u :: us2) s.elements) s.history
      (mutateSeq (u :: us2) s) (by rw [hspec]) (by simp [preTrees])
    rw [hlen] at hundo
    have hsredo : (mutateSeq (u :: us2) s).redoStack = [] := by rw [hspec]
    have hselts : (mutateSeq (u :: us2) s).elements
        = applyAll (u :: us2) s.elements := by rw [hspec]
    refine ⟨?_, ?_, noop1, noop2⟩
    · rw [hundo]
      simp [preTrees]
    · rw [hundo]
      have hq : ({ mutateSeq (u :: us2) s with
          elements := (preTrees (u :: us2) s.elements).headD
            (mutateSeq (u :: us2) s).elements
          history := s.history
          redoStack := (preTrees (u :: us2) s.elements).tail
            ++ (mutateSeq (u :: us2) s).elements
              :: (mutateSeq (u :: us2) s).redoStack
          selectedIds := [] } : CanvasState).redoStack
          = ((preTrees (u :: us2) s.elements).tail
              ++ [(mutateSeq (u :: us2) s).elements]) ++ [] := by
        show (preTrees (u :: us2) s.elements).tail
            ++ (mutateSeq (u :: us2) s).elements
              :: (mutateSeq (u :: us2) s).redoStack = _
        rw [hsredo]
        simp
      have hqlen : ((preTrees (u :: us2) s.elements).tail
          ++ [(mutateSeq (u :: us2) s).elements]).length
          = (u :: us2).length := by
        simp [preTrees, preTrees_length]
      have hredo := redoTimes_drain
        ((preTrees (u :: us2) s.elements).tail
          ++ [(mutateSeq (u :: us2) s).elements]) [] _ hq (by simp)
      rw [hqlen] at hredo
      rw [hredo]
      exact List.getLastD_concat _ _ _

/-- Concrete instance of the undo/redo inverse law: two committed
mutations on an initially empty canvas, undone twice and redone twice,
plus the empty-stack no-ops. -/
theorem claim_C1_undo_redo_inverse_witness :
    (undoTimes 2 (mutateSeq
        [fun l => l ++ [CanvasElement.mk 7 "r" 0 0 1 1 0 1
            (.shape .rectangle "#fff" "#000" 1 0)],
         fun _ => []] initialStateW)).elements = initialStateW.elements
    ∧ (redoTimes 2 (undoTimes 2 (mutateSeq
        [fun l => l ++ [CanvasElement.mk 7 "r" 0 0 1 1 0 1
            (.shape .rectangle "#fff" "#000" 1 0)],
         fun _ => []] initialStateW))).elements
        = (mutateSeq
            [fun l => l ++ [CanvasElement.mk 7 "r" 0 0 1 1 0 1
                (.shape .rectangle "#fff" "#000" 1 0)],
             fun _ => []] initialStateW).elements
    ∧ canvasReducer initialStateW .undo = initialStateW
    ∧ canvasReducer initialStateW .redo = initialStateW :=
  claim_C1_undo_redo_inverse initialStateW
    [fun l => l ++ [CanvasElement.mk 7 "r" 0 0 1 1 0 1
        (.shape .rectangle "#fff" "#000" 1 0)],
     fun _ => []] initialStateW initialStateW rfl rfl

/-- C7 — mutateElements history contract: the updater is applied to a
(deep) copy of the current elements — on immutable values the copy is the
value itself, so aliasing with the prior state is impossible by
construction; when recordHistory is true (which is the default taken by
`mutateElements` when no options are given), the entry pushed onto the
history stack is the caller-supplied historySnapshot when present and the
(copied) pre-mutation tree otherwise, and the redo stack becomes empty. -/
theorem claim_C7_mutate_history_contract
    (s : CanvasState) (updater : List CanvasElement → List CanvasElement)
    (snap : Option (List CanvasElement)) :
    (canvasReducer s (.setElements updater true snap)).elements
        = updater (deepCopy s.elements)
    ∧ (canvasReducer s (.setElements updater true snap)).history
        = s.history ++ [snap.getD (deepCopy s.elements)]
    ∧ (canvasReducer s (.setElements updater true snap)).redoStack = []
    ∧ mutateElements updater none s
        = canvasReducer s (.setElements updater true none)
    ∧ deepCopy s.elements = s.elements := by
  refine ⟨rfl, rfl, rfl, rfl, rfl⟩

/-- C10 — frame property of non-recording mutations: a SET_ELEMENTS
dispatch with recordHistory = false (a `mutateElements` call with
recordHistory := false) changes only the elements field; history,
redoStack, selectedIds, zoom, pan, interactionMode, artboard and
editingTextId are all left unchanged. -/
theorem claim_C10_nonrecording_frame
    (s : CanvasState) (updater : List CanvasElement → List CanvasElement)
    (snap : Option (List CanvasElement)) :
    (canvasReducer s (.setElements updater false snap)).elements
        = updater s.elements
    ∧ (canvasReducer s (.setElements updater false snap)).history = s.history
    ∧ (canvasReducer s (.setElements updater false snap)).redoStack = s.redoStack
    ∧ (canvasReducer s (.setElements updater false snap)).selectedIds = s.selectedIds
    ∧ (canvasReducer s (.setElements updater false snap)).zoom = s.zoom
    ∧ (canvasReducer s (.setElements updater false snap)).pan = s.pan
    ∧ (canvasReducer s (.setElements updater false snap)).interactionMode
        = s.interactionMode
    ∧ (canvasReducer s (.setElements updater false snap)).artboard = s.artboard
    ∧ (canvasReducer s (.setElements updater false snap)).editingTextId
        = s.editingTextId := by
  refine ⟨rfl, rfl, rfl, rfl, rfl, rfl, rfl, rfl, rfl⟩


/-- C9 — no-op conditions: grouping with fewer than two selected ids,
ungrouping when the selection is not exactly one id or when the single
selected id does not denote a group element, undo with an empty history
stack, redo with an empty redo stack, and paste with an empty clipboard
all leave the provider state entirely unchanged (and, being total
functions, never raise an error). -/
theorem claim_C9_noop_conditions
    (p1 p2 p3 p4 p5 p6 : ProviderState) (sel0 : Nat)
    (h1 : p1.canvas.selectedIds.length ≤ 1)
    (h2 : p2.canvas.selectedIds.length ≠ 1)
    (h3a : p3.canvas.selectedIds = [sel0])
    (h3b : p3.canvas.elements.find? (fun el => el.id == sel0 && el.isGroup) = none)
    (h4 : p4.canvas.history = [])
    (h5 : p5.canvas.redoStack = [])
    (h6 : p6.clipboard = []) :
    groupElements p1 = p1
    ∧ ungroupElements p2 = p2
    ∧ ungroupElements p3 = p3
    ∧ undo p4 = p4
    ∧ redo p5 = p5
    ∧ paste p6 = p6 := by
  refine ⟨?_, ?_, ?_, ?_, ?_, ?_⟩
  · simp [groupElements, h1]
  · simp [ungroupElements, h2]
  · have hguard : ¬ p3.canvas.selectedIds.length ≠ 1 := by simp [h3a]
    simp [ungroupElements, hguard, h3a, h3b]
  · have hred : canvasReducer p4.canvas .undo = p4.canvas := by
      simp [canvasReducer, h4]
    simp [undo, hred]
  · have hred : canvasReducer p5.canvas .redo = p5.canvas := by
      cases hr : p5.canvas.redoStack with
      | nil => simp [canvasReducer, hr]
      | cons a l => rw [h5] at hr; exact absurd hr (by simp)
    simp [redo, hred]
  · simp [paste, h6]

/-- Concrete provider states exercising every no-op condition of C9. -/
theorem claim_C9_noop_conditions_witness :
    groupElements provWitnessEmpty = provWitnessEmpty
    ∧ ungroupElements provWitnessEmpty = provWitnessEmpty
    ∧ ungroupElements provWitnessSel5 = provWitnessSel5
    ∧ undo provWitnessEmpty = provWitnessEmpty
    ∧ redo provWitnessEmpty = provWitnessEmpty
    ∧ paste provWitnessEmpty = provWitnessEmpty :=
  claim_C9_noop_conditions provWitnessEmpty provWitnessEmpty provWitnessSel5
    provWitnessEmpty provWitnessEmpty provWitnessEmpty 5
    (by decide) (by decide) rfl rfl rfl rfl rfl



/-- The clones produced by one `paste`: their geometry is the clipboard
geometry offset by the paste offset on both axes, their ids are the
consecutive fresh ids starting at the id counter, and the counter advances
by the clipboard length. -/
theorem pasteClones_spec (cb : List CanvasElement) (off : ℚ) (n : Nat) :
    (pasteClones cb off n).1.map geomOf
      = cb.map (fun c => (c.x + off, c.y + off, c.width, c.height, c.rotation))
    ∧ (pasteClones cb off n).2.1 = List.range' n cb.length
    ∧ (pasteClones cb off n).2.2 = n + cb.length := by
  induction cb generalizing n with
  | nil => simp [pasteClones]
  | cons item rest ih =>
    obtain ⟨ih1, ih2, ih3⟩ := ih (n + 1)
    refine ⟨?_, ?_, ?_⟩
    · cases item with
      | mk i nm x y w h r o p =>
        simp [pasteClones, ih1, geomOf, deepCopy, CanvasElement.translate,
          CanvasElement.withId, CanvasElement.withName, CanvasElement.x,
          CanvasElement.y, CanvasElement.width, CanvasElement.height,
          CanvasElement.rotation]
    · simp [pasteClones, ih2, List.range'_succ]
    · simp [pasteClones, ih3]
      omega

/-- C8 — paste offset sequence: with a non-empty clipboard, `paste`
appends clones whose geometry is the clipboard geometry offset by
`20 * pasteCount` on both axes, with fresh consecutive ids that become the
new selection, and increments the paste counter; `copy` on a non-empty
selection resets the counter to 1 and stores the selected elements.
Concretely, after copying one element at (10,10), three successive pastes
produce elements at (30,30), (50,50) and (70,70) with fresh distinct ids,
appended at the end, the last paste's ids being the selection. -/
theorem claim_C8_paste_offsets (ps : ProviderState) (h : ps.clipboard ≠ []) :
    (paste ps).canvas.elements
      = ps.canvas.elements
        ++ (pasteClones ps.clipboard (20 * ps.pasteCount) ps.nextId).1
    ∧ (pasteClones ps.clipboard (20 * ps.pasteCount) ps.nextId).1.map geomOf
      = ps.clipboard.map (fun c =>
          (c.x + 20 * (ps.pasteCount : ℚ), c.y + 20 * (ps.pasteCount : ℚ),
            c.width, c.height, c.rotation))
    ∧ (pasteClones ps.clipboard (20 * ps.pasteCount) ps.nextId).2.1
      = List.range' ps.nextId ps.clipboard.length
    ∧ (paste ps).canvas.selectedIds
      = (pasteClones ps.clipboard (20 * ps.pasteCount) ps.nextId).2.1
    ∧ (paste ps).pasteCount = ps.pasteCount + 1
    ∧ (∀ q : ProviderState,
        0 < (q.canvas.elements.filter
          (fun el => q.canvas.selectedIds.contains el.id)).length →
        (copy q).pasteCount = 1
        ∧ (copy q).clipboard = q.canvas.elements.filter
            (fun el => q.canvas.selectedIds.contains el.id))
    ∧ (paste (paste (paste (copy pasteScenarioStart)))).canvas.elements.map
        (fun el => (el.id, el.x, el.y))
      = [(1, 10, 10), (2, 30, 30), (3, 50, 50), (4, 70, 70)]
    ∧ (paste (paste (paste (copy pasteScenarioStart)))).canvas.selectedIds = [4] := by
  have hempty : ps.clipboard.isEmpty = false := by
    cases hc : ps.clipboard with
    | nil => exact absurd hc h
    | cons a l => rfl
  obtain ⟨hs1, hs2, hs3⟩ :=
    pasteClones_spec ps.clipboard (20 * ps.pasteCount) ps.nextId
  refine ⟨?_, hs1, hs2, ?_, ?_, ?_, ?_, ?_⟩
  · simp [paste, hempty, mutateElements, canvasReducer, deepCopy]
  · simp [paste, hempty, mutateElements, canvasReducer, deepCopy]
  · simp [paste, hempty]
  · intro q hq
    have h1 : (copy q).pasteCount = 1 := by
      simp only [copy]
      split
      · rfl
      · next hcond => exact absurd hq hcond
    have h2 : (copy q).clipboard = q.canvas.elements.filter
        (fun el => q.canvas.selectedIds.contains el.id) := by
      simp only [copy]
      split
      · rfl
      · next hcond => exact absurd hq hcond
    exact ⟨h1, h2⟩
  · norm_num [paste, copy, pasteClones, mutateElements, canvasReducer, deepCopy,
      pasteScenarioStart, initialStateW, elemAt1010, CanvasElement.translate,
      CanvasElement.withId, CanvasElement.withName, CanvasElement.id,
      CanvasElement.x, CanvasElement.y, jsSetDedup]
  · norm_num [paste, copy, pasteClones, mutateElements, canvasReducer, deepCopy,
      pasteScenarioStart, initialStateW, elemAt1010, CanvasElement.translate,
      CanvasElement.withId, CanvasElement.withName, CanvasElement.id,
      CanvasElement.x, CanvasElement.y, jsSetDedup]


/-- Concrete instance of the paste contract on a one-element clipboard. -/
theorem claim_C8_paste_offsets_witness :
    (paste provWitnessPaste).canvas.elements
      = provWitnessPaste.canvas.elements
        ++ (pasteClones provWitnessPaste.clipboard
            (20 * provWitnessPaste.pasteCount) provWitnessPaste.nextId).1
    ∧ (paste provWitnessPaste).pasteCount = provWitnessPaste.pasteCount + 1 :=
  ⟨(claim_C8_paste_offsets provWitnessPaste (List.cons_ne_nil elemAt1010 [])).1,
   (claim_C8_paste_offsets provWitnessPaste
      (List.cons_ne_nil elemAt1010 [])).2.2.2.2.1⟩


/-- Characterization of the corner-list fold: every corner lies inside the
returned box and each side is attained. -/
theorem bboxOfCorners_spec (L : List Point) (box : BBox)
    (h : bboxOfCorners L = some box) :
    (∀ p ∈ L, box.x ≤ p.x ∧ p.x ≤ box.x + box.width
      ∧ box.y ≤ p.y ∧ p.y ≤ box.y + box.height)
    ∧ (∃ p ∈ L, p.x = box.x)
    ∧ (∃ p ∈ L, p.y = box.y)
    ∧ (∃ p ∈ L, p.x = box.x + box.width)
    ∧ (∃ p ∈ L, p.y = box.y + box.height) := by
  cases L with
  | nil => exact absurd h (by simp [bboxOfCorners])
  | cons c0 cs =>
    have hb := Option.some.inj h
    subst hb
    refine ⟨?_, ?_, ?_, ?_, ?_⟩
    · intro p hp
      rcases List.mem_cons.mp hp with hh | hh
      · subst hh
        refine ⟨foldl_min_le_init Point.x cs p.x, ?_,
            foldl_min_le_init Point.y cs p.y, ?_⟩
        · have := foldl_max_ge_init Point.x cs p.x
          simp only
          linarith
        · have := foldl_max_ge_init Point.y cs p.y
          simp only
          linarith
      · refine ⟨foldl_min_le_mem Point.x cs c0.x p hh, ?_,
            foldl_min_le_mem Point.y cs c0.y p hh, ?_⟩
        · have := foldl_max_ge_mem Point.x cs c0.x p hh
          simp only
          linarith
        · have := foldl_max_ge_mem Point.y cs c0.y p hh
          simp only
          linarith
    · rcases foldl_min_attained Point.x cs c0.x with hh | ⟨p, hp, hfp⟩
      · exact ⟨c0, List.mem_cons_self c0 cs, hh.symm⟩
      · exact ⟨p, List.mem_cons_of_mem c0 hp, hfp.symm⟩
    · rcases foldl_min_attained Point.y cs c0.y with hh | ⟨p, hp, hfp⟩
      · exact ⟨c0, List.mem_cons_self c0 cs, hh.symm⟩
      · exact ⟨p, List.mem_cons_of_mem c0 hp, hfp.symm⟩
    · rcases foldl_max_attained Point.x cs c0.x with hh | ⟨p, hp, hfp⟩
      · refine ⟨c0, List.mem_cons_self c0 cs, ?_⟩
        simp only
        linarith
      · refine ⟨p, List.mem_cons_of_mem c0 hp, ?_⟩
        simp only
        linarith
    · rcases foldl_max_attained Point.y cs c0.y with hh | ⟨p, hp, hfp⟩
      · refine ⟨c0, List.mem_cons_self c0 cs, ?_⟩
        simp only
        linarith
      · refine ⟨p, List.mem_cons_of_mem c0 hp, ?_⟩
        simp only
        linarith

/-- C4 — bounding box under rotation: `getBoundingBox` returns none for an
empty set; any returned box is the axis-aligned hull of the rotated
corners of every element (all corners lie inside it and each of its four
sides is attained by some corner); and for a single element at
(0,0,100,50) rotated 90 degrees (with the exact values cos 90 = 0,
sin 90 = 1) the result is (25,-25,50,100). -/
theorem claim_C4_bounding_box_rotation (trig : ℚ → ℚ × ℚ)
    (es : List CanvasElement) (box : BBox)
    (hbox : getBoundingBox trig es = some box)
    (htrig : trig 90 = (0, 1)) :
    getBoundingBox trig [] = none
    ∧ (∀ p ∈ es.flatMap (getRotatedCorners trig),
        box.x ≤ p.x ∧ p.x ≤ box.x + box.width
        ∧ box.y ≤ p.y ∧ p.y ≤ box.y + box.height)
    ∧ (∃ p ∈ es.flatMap (getRotatedCorners trig), p.x = box.x)
    ∧ (∃ p ∈ es.flatMap (getRotatedCorners trig), p.y = box.y)
    ∧ (∃ p ∈ es.flatMap (getRotatedCorners trig), p.x = box.x + box.width)
    ∧ (∃ p ∈ es.flatMap (getRotatedCorners trig), p.y = box.y + box.height)
    ∧ getBoundingBox trig [rotElement] = some ⟨25, -25, 50, 100⟩ := by
  have hconcrete : getBoundingBox trig [rotElement] = some ⟨25, -25, 50, 100⟩ := by
    norm_num [getBoundingBox, bboxOfCorners, getRotatedCorners, rotatePoint,
      rotElement, htrig, CanvasElement.x, CanvasElement.y, CanvasElement.width,
      CanvasElement.height, CanvasElement.rotation]
  cases es with
  | nil => exact absurd hbox (by simp [getBoundingBox])
  | cons e es2 =>
    have hL : bboxOfCorners ((e :: es2).flatMap (getRotatedCorners trig))
        = some box := hbox
    obtain ⟨hin, ha1, ha2, ha3, ha4⟩ := bboxOfCorners_spec _ box hL
    exact ⟨rfl, hin, ha1, ha2, ha3, ha4, hconcrete⟩


/-- Concrete instance of the bounding-box characterization at the
90-degree scenario element. -/
theorem claim_C4_bounding_box_rotation_witness :
    getBoundingBox trigW [] = none
    ∧ getBoundingBox trigW [rotElement] = some ⟨25, -25, 50, 100⟩ :=
  ⟨(claim_C4_bounding_box_rotation trigW [rotElement] ⟨25, -25, 50, 100⟩
      (by norm_num [getBoundingBox, bboxOfCorners, getRotatedCorners,
        rotatePoint, rotElement, trigW, CanvasElement.x, CanvasElement.y,
        CanvasElement.width, CanvasElement.height, CanvasElement.rotation])
      (by norm_num [trigW])).1,
   (claim_C4_bounding_box_rotation trigW [rotElement] ⟨25, -25, 50, 100⟩
      (by norm_num [getBoundingBox, bboxOfCorners, getRotatedCorners,
        rotatePoint, rotElement, trigW, CanvasElement.x, CanvasElement.y,
        CanvasElement.width, CanvasElement.height, CanvasElement.rotation])
      (by norm_num [trigW])).2.2.2.2.2.2⟩


/-- C5 — drag-snap correction rule: with no static element the raw deltas
are returned with an empty guide list; otherwise, per axis independently,
if some matching-orientation (point, line) pair is within the threshold
then the returned delta is the raw delta plus the correction
`line.value - point.coordinate - rawDelta` of a pair realising the minimal
distance (so the point lands exactly on the line), and if every pair is
beyond the threshold the raw delta is returned. -/
theorem claim_C5_drag_snap_rule
    (movingElements allElements : List CanvasElement) (dx0 dy0 : ℚ)
    (snapshot : Nat → Option CanvasElement) (t : ℚ) :
    (otherElementsOf movingElements allElements = [] →
      calculateSnap movingElements allElements dx0 dy0 snapshot t
        = ⟨dx0, dy0, []⟩)
    ∧ (otherElementsOf movingElements allElements ≠ [] →
      ((∃ pr ∈ snapPairs (movingPointsOf movingElements snapshot)
            (staticLinesOf movingElements allElements),
          pr.2.type = .vertical ∧ |pr.1.x + dx0 - pr.2.value| ≤ t) →
        ∃ pr ∈ snapPairs (movingPointsOf movingElements snapshot)
            (staticLinesOf movingElements allElements),
          pr.2.type = .vertical
          ∧ |pr.1.x + dx0 - pr.2.value| ≤ t
          ∧ (∀ qr ∈ snapPairs (movingPointsOf movingElements snapshot)
                (staticLinesOf movingElements allElements),
              qr.2.type = .vertical →
              |pr.1.x + dx0 - pr.2.value| ≤ |qr.1.x + dx0 - qr.2.value|)
          ∧ (calculateSnap movingElements allElements dx0 dy0 snapshot t).dx
              = dx0 + (pr.2.value - pr.1.x - dx0))
      ∧ ((∀ pr ∈ snapPairs (movingPointsOf movingElements snapshot)
            (staticLinesOf movingElements allElements),
          pr.2.type = .vertical → t < |pr.1.x + dx0 - pr.2.value|) →
        (calculateSnap movingElements allElements dx0 dy0 snapshot t).dx = dx0)
      ∧ ((∃ pr ∈ snapPairs (movingPointsOf movingElements snapshot)
            (staticLinesOf movingElements allElements),
          pr.2.type = .horizontal ∧ |pr.1.y + dy0 - pr.2.value| ≤ t) →
        ∃ pr ∈ snapPairs (movingPointsOf movingElements snapshot)
            (staticLinesOf movingElements allElements),
          pr.2.type = .horizontal
          ∧ |pr.1.y + dy0 - pr.2.value| ≤ t
          ∧ (∀ qr ∈ snapPairs (movingPointsOf movingElements snapshot)
                (staticLinesOf movingElements allElements),
              qr.2.type = .horizontal →
              |pr.1.y + dy0 - pr.2.value| ≤ |qr.1.y + dy0 - qr.2.value|)
          ∧ (calculateSnap movingElements allElements dx0 dy0 snapshot t).dy
              = dy0 + (pr.2.value - pr.1.y - dy0))
      ∧ ((∀ pr ∈ snapPairs (movingPointsOf movingElements snapshot)
            (staticLinesOf movingElements allElements),
          pr.2.type = .horizontal → t < |pr.1.y + dy0 - pr.2.value|) →
        (calculateSnap movingElements allElements dx0 dy0 snapshot t).dy = dy0)) := by
  constructor
  · intro h
    have hemp : (otherElementsOf movingElements allElements).isEmpty = true := by
      rw [h]
      rfl
    simp [calculateSnap, hemp]
  · intro hne
    have hemp : (otherElementsOf movingElements allElements).isEmpty = false := by
      cases hoe : otherElementsOf movingElements allElements with
      | nil => exact absurd hoe hne
      | cons a l => rfl
    have hdx : (calculateSnap movingElements allElements dx0 dy0 snapshot t).dx
        = dx0 + (if t < ((snapPairs (movingPointsOf movingElements snapshot)
              (staticLinesOf movingElements allElements)).foldl
              (snapStep dx0 dy0) ⟨t + 1, 0, t + 1, 0⟩).minDistX
            then 0
            else ((snapPairs (movingPointsOf movingElements snapshot)
              (staticLinesOf movingElements allElements)).foldl
              (snapStep dx0 dy0) ⟨t + 1, 0, t + 1, 0⟩).snapDx) := by
      simp [calculateSnap, hemp]
    have hdy : (calculateSnap movingElements allElements dx0 dy0 snapshot t).dy
        = dy0 + (if t < ((snapPairs (movingPointsOf movingElements snapshot)
              (staticLinesOf movingElements allElements)).foldl
              (snapStep dx0 dy0) ⟨t + 1, 0, t + 1, 0⟩).minDistY
            then 0
            else ((snapPairs (movingPointsOf movingElements snapshot)
              (staticLinesOf movingElements allElements)).foldl
              (snapStep dx0 dy0) ⟨t + 1, 0, t + 1, 0⟩).snapDy) := by
      simp [calculateSnap, hemp]
    refine ⟨?_, ?_, ?_, ?_⟩
    · rintro ⟨pr, hm, hv, hd⟩
      have hminle := (snapFold_le_mem dx0 dy0 _ ⟨t + 1, 0, t + 1, 0⟩ pr hm).1 hv
      have hnot : ¬ t < ((snapPairs (movingPointsOf movingElements snapshot)
          (staticLinesOf movingElements allElements)).foldl
          (snapStep dx0 dy0) ⟨t + 1, 0, t + 1, 0⟩).minDistX :=
        not_lt.mpr (le_trans hminle hd)
      rcases snapFold_attainedX dx0 dy0 _ ⟨t + 1, 0, t + 1, 0⟩
        with ⟨hmin, hsnap⟩ | ⟨pr0, hm0, hv0, hd0, hc0⟩
      · exfalso
        have h1 : ((snapPairs (movingPointsOf movingElements snapshot)
            (staticLinesOf movingElements allElements)).foldl
            (snapStep dx0 dy0) ⟨t + 1, 0, t + 1, 0⟩).minDistX = t + 1 := hmin
        rw [h1] at hminle
        have := le_trans hminle hd
        linarith
      · refine ⟨pr0, hm0, hv0, ?_, ?_, ?_⟩
        · rw [← hd0]
          exact le_trans hminle hd
        · intro qr hqm hqv
          rw [← hd0]
          exact (snapFold_le_mem dx0 dy0 _ ⟨t + 1, 0, t + 1, 0⟩ qr hqm).1 hqv
        · rw [hdx, if_neg hnot, hc0]
    · intro hall
      have hgt : t < ((snapPairs (movingPointsOf movingElements snapshot)
          (staticLinesOf movingElements allElements)).foldl
          (snapStep dx0 dy0) ⟨t + 1, 0, t + 1, 0⟩).minDistX := by
        rcases snapFold_attainedX dx0 dy0 _ ⟨t + 1, 0, t + 1, 0⟩
          with ⟨hmin, hsnap⟩ | ⟨pr0, hm0, hv0, hd0, hc0⟩
        · have h1 : ((snapPairs (movingPointsOf movingElements snapshot)
              (staticLinesOf movingElements allElements)).foldl
              (snapStep dx0 dy0) ⟨t + 1, 0, t + 1, 0⟩).minDistX = t + 1 := hmin
          rw [h1]
          linarith
        · rw [hd0]
          exact hall pr0 hm0 hv0
      rw [hdx, if_pos hgt, add_zero]
    · rintro ⟨pr, hm, hv, hd⟩
      have hminle := (snapFold_le_mem dx0 dy0 _ ⟨t + 1, 0, t + 1, 0⟩ pr hm).2 hv
      have hnot : ¬ t < ((snapPairs (movingPointsOf movingElements snapshot)
          (staticLinesOf movingElements allElements)).foldl
          (snapStep dx0 dy0) ⟨t + 1, 0, t + 1, 0⟩).minDistY :=
        not_lt.mpr (le_trans hminle hd)
      rcases snapFold_attainedY dx0 dy0 _ ⟨t + 1, 0, t + 1, 0⟩
        with ⟨hmin, hsnap⟩ | ⟨pr0, hm0, hv0, hd0, hc0⟩
      · exfalso
        have h1 : ((snapPairs (movingPointsOf movingElements snapshot)
            (staticLinesOf movingElements allElements)).foldl
            (snapStep dx0 dy0) ⟨t + 1, 0, t + 1, 0⟩).minDistY = t + 1 := hmin
        rw [h1] at hminle
        have := le_trans hminle hd
        linarith
      · refine ⟨pr0, hm0, hv0, ?_, ?_, ?_⟩
        · rw [← hd0]
          exact le_trans hminle hd
        · intro qr hqm hqv
          rw [← hd0]
          exact (snapFold_le_mem dx0 dy0 _ ⟨t + 1, 0, t + 1, 0⟩ qr hqm).2 hqv
        · rw [hdy, if_neg hnot, hc0]
    · intro hall
      have hgt : t < ((snapPairs (movingPointsOf movingElements snapshot)
          (staticLinesOf movingElements allElements)).foldl
          (snapStep dx0 dy0) ⟨t + 1, 0, t + 1, 0⟩).minDistY := by
        rcases snapFold_attainedY dx0 dy0 _ ⟨t + 1, 0, t + 1, 0⟩
          with ⟨hmin, hsnap⟩ | ⟨pr0, hm0, hv0, hd0, hc0⟩
        · have h1 : ((snapPairs (movingPointsOf movingElements snapshot)
              (staticLinesOf movingElements allElements)).foldl
              (snapStep dx0 dy0) ⟨t + 1, 0, t + 1, 0⟩).minDistY = t + 1 := hmin
          rw [h1]
          linarith
        · rw [hd0]
          exact hall pr0 hm0 hv0
      rw [hdy, if_pos hgt, add_zero]

/-- Concrete instance of the drag-snap rule: with no other elements the
input deltas come back unchanged with no guides. -/
theorem claim_C5_drag_snap_rule_witness :
    calculateSnap [] [] 3 4 (fun _ => none) 5 = ⟨3, 4, []⟩ :=
  (claim_C5_drag_snap_rule [] [] 3 4 (fun _ => none) 5).1 rfl


/-- C6 as stated is false on the code: with A at (0,0,100,100) and B at
(205,0,100,100), dragging B left by 6 with threshold 5 leaves a 99-unit
gap between B's left edge (at 199) and A's right edge (at 100), far
beyond the threshold, so no snap occurs: the returned delta is the raw -6
and B ends at x = 199, not 100. -/
theorem claim_C6_drag_snap_counterexample :
    (calculateSnap [elemB205] [elemA, elemB205] (-6) 0 snapshotB205 5).dx = -6
    ∧ elemB205.x
        + (calculateSnap [elemB205] [elemA, elemB205] (-6) 0 snapshotB205 5).dx
      = 199
    ∧ ¬ (elemB205.x
        + (calculateSnap [elemB205] [elemA, elemB205] (-6) 0 snapshotB205 5).dx
      = 100) := by
  refine ⟨?_, ?_, ?_⟩ <;>
    norm_num [calculateSnap, otherElementsOf, staticLinesOf, movingPointsOf,
      snapPairs, snapStep, getSnapLines, getSnapPoints, elemA, elemB205,
      snapshotB205, CanvasElement.id, CanvasElement.x, CanvasElement.y,
      CanvasElement.width, CanvasElement.height, CanvasElement.payload]

/-- C6 (amended) — drag-with-snap scenario: with element A at
(0,0,100,100) and element B at (105,0,100,100), dragging B left by 6
units with snap threshold 5 snaps B's left edge to A's right edge at
x = 100: the corrected delta is -5 and the resulting position of B is
x = 100, not 99. -/
theorem claim_C6_drag_snap_scenario :
    (calculateSnap [elemB105] [elemA, elemB105] (-6) 0 snapshotB105 5).dx = -5
    ∧ elemB105.x
        + (calculateSnap [elemB105] [elemA, elemB105] (-6) 0 snapshotB105 5).dx
      = 100
    ∧ ¬ (elemB105.x
        + (calculateSnap [elemB105] [elemA, elemB105] (-6) 0 snapshotB105 5).dx
      = 99) := by
  refine ⟨?_, ?_, ?_⟩ <;>
    norm_num [calculateSnap, otherElementsOf, staticLinesOf, movingPointsOf,
      snapPairs, snapStep, getSnapLines, getSnapPoints, elemA, elemB105,
      snapshotB105, CanvasElement.id, CanvasElement.x, CanvasElement.y,
      CanvasElement.width, CanvasElement.height, CanvasElement.payload]


/-- C2 (amended) — group/ungroup round trip on non-group selections: for
every selection of at least two ids matching at least one element, all
matched elements being non-groups, grouping and then immediately
ungrouping yields top-level elements whose absolute x, y, width, height
and rotation are exactly those of the untouched elements followed by the
originally selected elements (ids may differ).  (Freshness of the id
counter over the current elements is assumed, as the source guarantees
via randomUUID.) -/
theorem claim_C2_group_ungroup_roundtrip (ps : ProviderState)
    (hguard : ¬ ps.canvas.selectedIds.length ≤ 1)
    (first : CanvasElement) (rest : List CanvasElement)
    (hse : ps.canvas.elements.filter
        (fun el => ps.canvas.selectedIds.contains el.id) = first :: rest)
    (hng : ∀ el ∈ (first :: rest), el.isGroup = false)
    (hfresh : ∀ el ∈ ps.canvas.elements, el.id < ps.nextId) :
    (ungroupElements (groupElements ps)).canvas.elements.map geomOf
      = (ps.canvas.elements.filter
          (fun el => !(ps.canvas.selectedIds.contains el.id))).map geomOf
        ++ (first :: rest).map geomOf := by
  obtain ⟨nm, minX, minY, w, h, he, hsel1, hnext1, _, _⟩ :=
    groupElements_spec ps hguard first rest hse
  have hguard2 : ¬ (groupElements ps).canvas.selectedIds.length ≠ 1 := by
    rw [hsel1]
    simp
  have hfind : (groupElements ps).canvas.elements.find?
      (fun el => el.id == (groupElements ps).canvas.selectedIds.headD 0
        && el.isGroup)
      = some (CanvasElement.mk ps.nextId nm minX minY w h 0 1
          (ElemPayload.group ((first :: rest).map
            (fun el => el.withPos (el.x - minX) (el.y - minY))))) := by
    rw [hsel1, he]
    simp only [List.headD_cons]
    rw [find?_append_of_none]
    · rw [List.find?_cons_of_pos]
      simp [CanvasElement.isGroup]
    · intro el hel
      have hel2 : el ∈ ps.canvas.elements := (List.mem_filter.mp hel).1
      have hlt := hfresh el hel2
      have hbeq : (el.id == ps.nextId) = false := by
        rw [beq_eq_false_iff_ne]
        omega
      rw [hbeq, Bool.false_and]
  unfold ungroupElements
  rw [if_neg hguard2]
  simp only [hfind]
  simp only [mutateElements, canvasReducer, deepCopy, Option.bind,
    payload_mk, id_mk, x_mk, y_mk]
  rw [he, hnext1]
  have hfilter : (ps.canvas.elements.filter
        (fun el => !(ps.canvas.selectedIds.contains el.id))
      ++ [CanvasElement.mk ps.nextId nm minX minY w h 0 1
          (ElemPayload.group ((first :: rest).map
            (fun el => el.withPos (el.x - minX) (el.y - minY))))]).filter
      (fun el => el.id != ps.nextId)
      = ps.canvas.elements.filter
          (fun el => !(ps.canvas.selectedIds.contains el.id)) := by
    rw [List.filter_append]
    have h1 : (ps.canvas.elements.filter
        (fun el => !(ps.canvas.selectedIds.contains el.id))).filter
        (fun el => el.id != ps.nextId)
        = ps.canvas.elements.filter
            (fun el => !(ps.canvas.selectedIds.contains el.id)) := by
      rw [List.filter_eq_self]
      intro el hel
      have hel2 : el ∈ ps.canvas.elements := (List.mem_filter.mp hel).1
      have hlt := hfresh el hel2
      simp only [bne_iff_ne, ne_eq]
      omega
    have h2 : ([CanvasElement.mk ps.nextId nm minX minY w h 0 1
        (ElemPayload.group ((first :: rest).map
          (fun el => el.withPos (el.x - minX) (el.y - minY))))].filter
        (fun el => el.id != ps.nextId)) = [] := by
      simp
    rw [h1, h2, List.append_nil]
  rw [hfilter]
  rw [List.map_append]
  congr 1
  have hngc : ∀ c ∈ (first :: rest).map
      (fun el => el.withPos (el.x - minX) (el.y - minY)), c.isGroup = false := by
    intro c hc
    obtain ⟨el, hel, hrfl⟩ := List.mem_map.mp hc
    subst hrfl
    rw [isGroup_withPos]
    exact hng el hel
  rw [(processChildren_spec ((first :: rest).map
      (fun el => el.withPos (el.x - minX) (el.y - minY)))
      minX minY (ps.nextId + 1)).1]
  rw [flattenLeafGeoms_all_leaves _ _ _ hngc]
  rw [List.map_map]
  apply List.map_congr_left
  intro el hel
  simp [geomOf, Function.comp]


/-- C3 (amended) — ungroup flattens recursively: when exactly one id is
selected and it denotes a group element, `ungroupElements` removes the
group and appends, at top level, ONLY the leaf descendants of its child
tree, each at its accumulated absolute position (its own coordinates plus
the coordinates of the dissolved group and of every dissolved ancestor
group along the way) and with a fresh unique id (fresh ids never collide
with the group's internal child ids and are pairwise distinct); nested
group elements do not survive — they are dissolved too, although each
also consumes a fresh id that is included in the new selection. -/
theorem claim_C3_ungroup_flatten (ps : ProviderState) (gid : Nat)
    (grp : CanvasElement) (cs : List CanvasElement)
    (hsel : ps.canvas.selectedIds = [gid])
    (hfind : ps.canvas.elements.find?
        (fun el => el.id == gid && el.isGroup) = some grp)
    (hpay : grp.payload = ElemPayload.group cs)
    (hidsIn : ∀ i ∈ idsIn cs, i < ps.nextId) :
    ((ungroupElements ps).canvas.elements.map geomOf
      = (ps.canvas.elements.filter (fun el => el.id != grp.id)).map geomOf
        ++ flattenLeafGeoms cs grp.x grp.y)
    ∧ (∀ el ∈ (processChildren cs grp.x grp.y ps.nextId).1, el.isGroup = false)
    ∧ (∀ el ∈ (processChildren cs grp.x grp.y ps.nextId).1, ps.nextId ≤ el.id)
    ∧ (∀ el ∈ (processChildren cs grp.x grp.y ps.nextId).1, el.id ∉ idsIn cs)
    ∧ ((processChildren cs grp.x grp.y ps.nextId).1.map CanvasElement.id).Nodup
    ∧ (ungroupElements ps).canvas.elements
      = ps.canvas.elements.filter (fun el => el.id != grp.id)
        ++ (processChildren cs grp.x grp.y ps.nextId).1
    ∧ (ungroupElements ps).canvas.selectedIds
      = (processChildren cs grp.x grp.y ps.nextId).2.1 := by
  obtain ⟨hs1, hs2, hs3, hs4, hs5⟩ := processChildren_spec cs grp.x grp.y ps.nextId
  have hguard : ¬ ps.canvas.selectedIds.length ≠ 1 := by
    rw [hsel]
    simp
  have helems : (ungroupElements ps).canvas.elements
      = ps.canvas.elements.filter (fun el => el.id != grp.id)
        ++ (processChildren cs grp.x grp.y ps.nextId).1 := by
    unfold ungroupElements
    rw [if_neg hguard, hsel]
    simp only [List.headD_cons, hfind, hpay]
    simp [mutateElements, canvasReducer, deepCopy]
  have hselout : (ungroupElements ps).canvas.selectedIds
      = (processChildren cs grp.x grp.y ps.nextId).2.1 := by
    unfold ungroupElements
    rw [if_neg hguard, hsel]
    simp only [List.headD_cons, hfind, hpay]
    simp [mutateElements, canvasReducer, deepCopy]
  refine ⟨?_, hs2, ?_, ?_, hs4, helems, hselout⟩
  · rw [helems, List.map_append, hs1]
  · intro el hel
    exact (hs3 el hel).1
  · intro el hel hin
    have hlt := hidsIn el.id hin
    have hge := (hs3 el hel).1
    omega


/-- C2 as stated is false on the code: when the selected set contains a
group element, grouping and immediately ungrouping does NOT reproduce its
geometry — the group is recursively dissolved, so its (x,y,width,height,
rotation) = (20,0,30,30,0) appears among the selected elements but not
among the round-trip result (which holds the leaf grandchild at (25,5)
instead). -/
theorem claim_C2_group_ungroup_counterexample :
    (((20 : ℚ), (0 : ℚ), (30 : ℚ), (30 : ℚ), (0 : ℚ))
      ∈ (c2start.canvas.elements.filter
          (fun el => c2start.canvas.selectedIds.contains el.id)).map geomOf)
    ∧ ((ungroupElements (groupElements c2start)).canvas.elements.map geomOf)
      = [(0, 0, 10, 10, 0), (25, 5, 7, 7, 0)]
    ∧ (((20 : ℚ), (0 : ℚ), (30 : ℚ), (30 : ℚ), (0 : ℚ))
      ∉ ((ungroupElements (groupElements c2start)).canvas.elements.map geomOf)) := by
  refine ⟨?_, ?_, ?_⟩ <;>
    norm_num [ungroupElements, groupElements, processChildren_cons_group,
      processChildren_cons_leaf, processChildren, mutateElements, canvasReducer,
      deepCopy, c2start, c2leafA, c2groupG, c2innerLeaf, initialStateW, geomOf,
      CanvasElement.isGroup, CanvasElement.translate, CanvasElement.withId,
      CanvasElement.withPos, jsSetDedup]

/-- Concrete instance of the amended round trip: grouping then ungrouping
two selected leaves reproduces their geometry exactly. -/
theorem claim_C2_group_ungroup_roundtrip_witness :
    (ungroupElements (groupElements c2wit)).canvas.elements.map geomOf
      = (c2wit.canvas.elements.filter
          (fun el => !(c2wit.canvas.selectedIds.contains el.id))).map geomOf
        ++ ([c2wleafA, c2wleafB].map geomOf) :=
  claim_C2_group_ungroup_roundtrip c2wit (by decide) c2wleafA [c2wleafB] rfl
    (by decide) (by decide)

/-- C3 as stated is false on the code: the selected group's only immediate
child is itself a group, yet after ungrouping no group element survives at
top level — only the leaf grandchild remains, reparented through both
accumulated offsets to (33,39) with a fresh id; the dissolved nested group
also consumed a fresh id (4) that appears in the selection. -/
theorem claim_C3_ungroup_nondeep_counterexample :
    c3groupG.payload = ElemPayload.group [c3groupH]
    ∧ c3groupH.isGroup = true
    ∧ ((ungroupElements c3start).canvas.elements.map
        (fun el => (el.isGroup, el.id, el.x, el.y)))
      = [(false, 5, 33, 39)]
    ∧ ((ungroupElements c3start).canvas.elements.filter
        (fun el => el.isGroup)).length = 0
    ∧ (ungroupElements c3start).canvas.selectedIds = [4, 5] := by
  refine ⟨rfl, rfl, ?_, ?_, ?_⟩ <;>
    norm_num [ungroupElements, processChildren_cons_group,
      processChildren_cons_leaf, processChildren, mutateElements, canvasReducer,
      deepCopy, c3start, c3groupG, c3groupH, c3leafL, initialStateW,
      CanvasElement.isGroup, CanvasElement.translate, CanvasElement.withId,
      jsSetDedup]

/-- Concrete instance of the amended flattening law on the nested-group
state. -/
theorem claim_C3_ungroup_flatten_witness :
    ((ungroupElements c3start).canvas.elements.map geomOf
      = (c3start.canvas.elements.filter
          (fun el => el.id != c3groupG.id)).map geomOf
        ++ flattenLeafGeoms [c3groupH] c3groupG.x c3groupG.y)
    ∧ (ungroupElements c3start).canvas.selectedIds
      = (processChildren [c3groupH] c3groupG.x c3groupG.y c3start.nextId).2.1 := by
  have h := claim_C3_ungroup_flatten c3start 1 c3groupG [c3groupH] rfl rfl rfl
    (by
      norm_num [c3groupH, c3leafL, c3start, idsIn_cons_group, idsIn_cons_leaf,
        idsIn_nil, CanvasElement.isGroup])
  exact ⟨h.1, h.2.2.2.2.2.2⟩

end ByteDraw
